import Mathlib

/-!
# PdfiumAndroid: the native bridge `mainJNILib.cpp`

A shallow embedding of the native functions of `src/main/jni/src/mainJNILib.cpp`.

* Pointers and handles that cross the Java boundary are `jlong` values, modelled
  as `Int`; the null pointer is `0`.
* The PDF engine, the allocator, the file system and the Android bitmap
  functions are external.  What they answer during one native call is a
  parameter (`Engine`, `Host`, `RenderEngine`, `Android`, `QueryEngine`); the
  calls that leave the library are appended to the `trace` of the process, in
  the order in which the source makes them.
* `double` values are exact rationals; the pixel queries are also given with
  each `double` operation rounded (`nativeGetPageWidthPixelRounded`).
* `int` arithmetic that overflows is undefined: the result is `none`.
* The pixels of a bitmap are a `Canvas`; of the engine functions that draw,
  only `FPDFBitmap_FillRect` is given an effect on it (`fillRect`).
* Logging (`LOGD`, `LOGE`) and string or array marshalling are not modelled.
-/

namespace PdfiumAndroid

/-! ## Data model -/

/-- Calls that leave the library, as recorded in the trace of a process: the
allocation and release of a `DocumentFile`, calls into the PDF engine,
`ThrowNew` on the JNI environment, and for the bitmap render the calls on the
Android bitmap and `malloc`.  `changeBitmapBR` is the pass of the library over
the pixel buffer at `pixels`; it is recorded to keep its place among the calls.
`FPDFDOC_ExitFormFillEnvironment` is the engine function that releases a form
environment; no function of the library calls it. -/
inductive Call where
  | operator_new (addr : Int)
  | operator_delete (addr : Int)
  | FPDF_InitLibrary
  | FPDF_DestroyLibrary
  | FPDF_LoadCustomDocument (m_FileLen : Int) (fd : Int) (password : Option String)
  | FPDF_LoadMemDocument (data : List Int) (size : Int) (password : Option String)
  | FPDF_CloseDocument (document : Int)
  | FPDF_GetLastError
  | FPDF_LoadPage (document : Int) (pageIndex : Int)
  | FPDFText_LoadPage (page : Int)
  | ThrowNew (className : String) (message : String)
  | AndroidBitmap_lockPixels (bitmap : Int)
  | AndroidBitmap_unlockPixels (bitmap : Int)
  | malloc (size : Int)
  | FPDFBitmap_CreateEx (width height format buffer stride : Int)
  | FPDFBitmap_FillRect (bitmap left top width height color : Int)
  | FPDF_RenderPageBitmap (bitmap page startX startY sizeX sizeY rotate flags : Int)
  | changeBitmapBR (pixels : Int)
  | FPDFDOC_InitFormFillEnvironment (document : Int)
  | FPDF_SetFormFieldHighlightColor (form fieldType color : Int)
  | FPDF_SetFormFieldHighlightAlpha (form alpha : Int)
  | FORM_DoDocumentJSAction (form : Int)
  | FORM_DoDocumentOpenAction (form : Int)
  | FORM_OnAfterLoadPage (page form : Int)
  | FORM_DoPageAAction (page form aaType : Int)
  | FPDF_FFLDraw (form bitmap page startX startY sizeX sizeY rotate flags : Int)
  | FPDFDOC_ExitFormFillEnvironment (form : Int)
  | FPDF_GetPageSizeByIndex (document pageIndex : Int)
  deriving DecidableEq, Repr

/-- The members of `class DocumentFile` that the code reads or writes
(`fileFd` and `fileSize` are never touched).  Both start as `NULL`. -/
structure DocumentFile where
  pdfDocument : Int := 0
  m_form : Int := 0
  deriving DecidableEq, Repr

/-- The state of the process as far as the library is concerned: the static
`sLibraryReferenceCount`, the live `DocumentFile` objects by address, and the
calls made so far.  The count is a C `int`; it is kept in `Int` because it
counts live heap objects and so stays far below `2^31`. -/
structure Process where
  sLibraryReferenceCount : Int := 0
  heap : List (Int × DocumentFile) := []
  trace : List Call := []
  deriving DecidableEq, Repr

/-- The process right after the library is loaded:
`static int sLibraryReferenceCount = 0`. -/
def Process.initial : Process := {}

/-- Record a call that leaves the library. -/
def Process.call (p : Process) (c : Call) : Process :=
  { p with trace := p.trace ++ [c] }

/-- The calls made between state `p` and the later state `q`. -/
def Process.since (p q : Process) : List Call :=
  q.trace.drop p.trace.length

/-- Replays a trace: the engine is initialised after `FPDF_InitLibrary` and
until the next `FPDF_DestroyLibrary`. -/
def engineInitialised (trace : List Call) : Bool :=
  trace.foldl
    (fun up c =>
      match c with
      | .FPDF_InitLibrary => true
      | .FPDF_DestroyLibrary => false
      | _ => up)
    false

/-! ## Engine lifecycle (lines 35-81) -/

/-- Source: `initLibraryIfNeed`. -/
def initLibraryIfNeed (p : Process) : Process :=
  let p := if p.sLibraryReferenceCount = 0 then p.call .FPDF_InitLibrary else p
  { p with sLibraryReferenceCount := p.sLibraryReferenceCount + 1 }

/-- Source: `destroyLibraryIfNeed`. -/
def destroyLibraryIfNeed (p : Process) : Process :=
  let p := { p with sLibraryReferenceCount := p.sLibraryReferenceCount - 1 }
  if p.sLibraryReferenceCount = 0 then p.call .FPDF_DestroyLibrary else p

/-- Source: `new DocumentFile()`.  The allocator answers `addr`; the members
take their default `NULL` and the constructor body runs `initLibraryIfNeed`. -/
def new_DocumentFile (p : Process) (addr : Int) : Process :=
  let p := p.call (.operator_new addr)
  let p := { p with heap := (addr, ({} : DocumentFile)) :: p.heap }
  initLibraryIfNeed p

/-- Source: `DocumentFile::~DocumentFile`, run on the object `d`. -/
def DocumentFile.destructor (p : Process) (d : DocumentFile) : Process :=
  let p := if d.pdfDocument ≠ 0 then p.call (.FPDF_CloseDocument d.pdfDocument) else p
  destroyLibraryIfNeed p

/-- Source: `delete docFile`.  Runs the destructor of the live object at `addr`
and then frees it.  Deleting the null pointer does nothing. -/
def delete_DocumentFile (p : Process) (addr : Int) : Process :=
  match p.heap.lookup addr with
  | none => p
  | some d =>
    let p := DocumentFile.destructor p d
    let p := { p with heap := p.heap.eraseP (fun o => o.1 == addr) }
    p.call (.operator_delete addr)

/-- Source: `docFile->pdfDocument = document`, on the live object at `addr`. -/
def Process.setDocument (p : Process) (addr : Int) (document : Int) : Process :=
  let store := fun (o : Int × DocumentFile) =>
    if o.1 = addr then (o.1, DocumentFile.mk document o.2.m_form) else o
  { p with heap := p.heap.map store }

/-- What can happen to `DocumentFile` objects: construction at a fresh address,
assignment of the loaded document, destruction. -/
inductive LifecycleOp where
  | construct (addr : Int)
  | assign (addr : Int) (document : Int)
  | destruct (addr : Int)
  deriving DecidableEq, Repr

/-- One lifecycle operation. -/
def LifecycleOp.step (p : Process) : LifecycleOp → Process
  | .construct addr => new_DocumentFile p addr
  | .assign addr document => p.setDocument addr document
  | .destruct addr => delete_DocumentFile p addr

/-- An operation is well-formed in `p`: the allocator hands out a non-null
address that is not live, and assignment and destruction act on a live handle. -/
def LifecycleOp.valid (p : Process) : LifecycleOp → Bool
  | .construct addr => decide (addr ≠ 0) && (p.heap.lookup addr).isNone
  | .assign addr _ => (p.heap.lookup addr).isSome
  | .destruct addr => (p.heap.lookup addr).isSome

/-- Runs a sequence of lifecycle operations. -/
def runLifecycle (p : Process) (ops : List LifecycleOp) : Process :=
  ops.foldl LifecycleOp.step p

/-- Every operation of the sequence is well-formed in the state it runs in. -/
def validLifecycle : Process → List LifecycleOp → Bool
  | _, [] => true
  | p, op :: ops => op.valid p && validLifecycle (op.step p) ops

/-! ## External collaborators -/

/-- What the PDF engine answers during one native call.  The error constants
are those of the engine header `fpdfview.h`, which is not part of this
repository; they are parameters.  A document, page or text page is a handle,
`0` for `NULL`; page sizes are `double` values, taken as exact rationals. -/
structure Engine where
  FPDF_ERR_SUCCESS : Int
  FPDF_ERR_FILE : Int
  FPDF_ERR_FORMAT : Int
  FPDF_ERR_PASSWORD : Int
  FPDF_ERR_SECURITY : Int
  FPDF_ERR_PAGE : Int
  FPDF_LoadCustomDocument : (m_FileLen : Int) → (fd : Int) → (password : Option String) → Int
  FPDF_LoadMemDocument : (data : List Int) → (size : Int) → (password : Option String) → Int
  FPDF_GetLastError : Int
  FPDF_LoadPage : (document : Int) → (pageIndex : Int) → Int
  FPDFText_LoadPage : (page : Int) → Int
  FPDF_GetPageWidth : (page : Int) → ℚ
  FPDF_GetPageHeight : (page : Int) → ℚ

/-- What the operating system and the allocator answer during one native call:
the width in bits of `long` and `size_t`, the `st_size` that `fstat` reports
for a descriptor (`none` when `fstat` fails), and the address that
`new DocumentFile` returns. -/
structure Host where
  longBits : Nat
  fstat : (fd : Int) → Option Int
  operator_new : Int

/-- Conversion to `long`: two-complement wrap-around at `longBits` bits. -/
def Host.toLong (h : Host) (v : Int) : Int :=
  (v + 2 ^ (h.longBits - 1)) % 2 ^ h.longBits - 2 ^ (h.longBits - 1)

/-- Conversion to `size_t`: the value modulo `2 ^ longBits`. -/
def Host.toSizeT (h : Host) (v : Int) : Int :=
  v % 2 ^ h.longBits

/-- The exceptions raised by a list of calls, as class name and message. -/
def raised (calls : List Call) : List (String × String) :=
  calls.filterMap
    (fun c =>
      match c with
      | .ThrowNew className message => some (className, message)
      | _ => none)

/-! ## Helpers (lines 90-151) -/

/-- Source: `getFileSize`. -/
def getFileSize (h : Host) (fd : Int) : Int :=
  match h.fstat fd with
  | some st_size => h.toLong st_size
  | none => 0

/-- Source: `getErrorDescription`.  The `switch` is read as a chain of
comparisons in the order of its `case` labels. -/
def getErrorDescription (e : Engine) (error : Int) : String :=
  if error = e.FPDF_ERR_SUCCESS then "No error."
  else if error = e.FPDF_ERR_FILE then "File not found or could not be opened."
  else if error = e.FPDF_ERR_FORMAT then "File not in PDF format or corrupted."
  else if error = e.FPDF_ERR_PASSWORD then "Incorrect password."
  else if error = e.FPDF_ERR_SECURITY then "Unsupported security scheme."
  else if error = e.FPDF_ERR_PAGE then "Page not found or content error."
  else "Unknown error."

/-- Source: `jniThrowException`.  The JNI environment finds the exception
class and `ThrowNew` succeeds, so the exception becomes pending and the
function returns 0. -/
def jniThrowException (p : Process) (className message : String) : Process × Int :=
  (p.call (.ThrowNew className message), 0)

/-- Source: `jniThrowExceptionFmt`.  `formatted` is the format string with its
arguments substituted; `vsnprintf` keeps at most 511 characters of it in the
512-byte `msgBuf`. -/
def jniThrowExceptionFmt (p : Process) (className formatted : String) : Process × Int :=
  let msgBuf := String.mk (formatted.data.take 511)
  jniThrowException p className msgBuf

/-! ## Opening a document (lines 251-352) -/

/-- Source: the `if (!document)` block shared verbatim by `nativeOpenDocument`
(lines 278-294) and `nativeOpenMemDocument` (lines 321-337). -/
def openFailed (e : Engine) (p : Process) (docFile : Int) : Process × Int :=
  let p := delete_DocumentFile p docFile
  let errorNum := e.FPDF_GetLastError
  let p := p.call .FPDF_GetLastError
  if errorNum = e.FPDF_ERR_PASSWORD then
    let p := (jniThrowException p "com/shockwave/pdfium/PdfPasswordException"
      "Password required or incorrect password.").1
    (p, -1)
  else
    let error := getErrorDescription e errorNum
    let p := (jniThrowExceptionFmt p "java/io/IOException"
      ("cannot create document: " ++ error)).1
    (p, -1)

/-- Source: `nativeOpenDocument`.  Returns the new state and the `jlong`
result: the address of the `DocumentFile`, or -1. -/
def nativeOpenDocument (e : Engine) (h : Host) (p : Process) (fd : Int)
    (password : Option String) : Process × Int :=
  let fileLength := h.toSizeT (getFileSize h fd)
  if fileLength ≤ 0 then
    let p := (jniThrowException p "java/io/IOException" "File is empty").1
    (p, -1)
  else
    let docFile := h.operator_new
    let p := new_DocumentFile p docFile
    let cpassword := password
    let document := e.FPDF_LoadCustomDocument fileLength fd cpassword
    let p := p.call (.FPDF_LoadCustomDocument fileLength fd cpassword)
    if document = 0 then
      openFailed e p docFile
    else
      let p := p.setDocument docFile document
      (p, docFile)

/-- Source: `nativeOpenMemDocument`.  `data` is the content of the Java byte
array; the engine receives a copy of it and its length. -/
def nativeOpenMemDocument (e : Engine) (h : Host) (p : Process) (data : List Int)
    (password : Option String) : Process × Int :=
  let docFile := h.operator_new
  let p := new_DocumentFile p docFile
  let cpassword := password
  let size : Int := data.length
  let cDataCopy := data
  let document := e.FPDF_LoadMemDocument cDataCopy size cpassword
  let p := p.call (.FPDF_LoadMemDocument cDataCopy size cpassword)
  if document = 0 then
    openFailed e p docFile
  else
    let p := p.setDocument docFile document
    (p, docFile)

/-- Source: `nativeCloseDocument`. -/
def nativeCloseDocument (p : Process) (documentPtr : Int) : Process :=
  delete_DocumentFile p documentPtr

/-! ## Pages and text pages (lines 354-409 and 867-921) -/

/-- Source: `loadPageInternal`.  `doc` is the `DocumentFile*` argument: `none`
for `NULL`, otherwise the object it points to.  Every `throw` lands in the
`catch` block, which raises `IllegalStateException` and returns -1. -/
def loadPageInternal (e : Engine) (p : Process) (doc : Option DocumentFile)
    (pageIndex : Int) : Process × Int :=
  match doc with
  | none =>
    let p := (jniThrowException p "java/lang/IllegalStateException" "cannot load page").1
    (p, -1)
  | some d =>
    let pdfDoc := d.pdfDocument
    if pdfDoc ≠ 0 then
      let page := e.FPDF_LoadPage pdfDoc pageIndex
      let p := p.call (.FPDF_LoadPage pdfDoc pageIndex)
      if page = 0 then
        let p := (jniThrowException p "java/lang/IllegalStateException" "cannot load page").1
        (p, -1)
      else
        (p, page)
    else
      let p := (jniThrowException p "java/lang/IllegalStateException" "cannot load page").1
      (p, -1)

/-- Source: `loadTextPageInternal`.  `pagePtr` is reinterpreted as the page
pointer. -/
def loadTextPageInternal (e : Engine) (p : Process) (doc : Option DocumentFile)
    (pagePtr : Int) : Process × Int :=
  match doc with
  | none =>
    let p := (jniThrowException p "java/lang/IllegalStateException" "cannot load text page").1
    (p, -1)
  | some _ =>
    let page := pagePtr
    if page ≠ 0 then
      let textPage := e.FPDFText_LoadPage page
      let p := p.call (.FPDFText_LoadPage page)
      if textPage = 0 then
        let p := (jniThrowException p "java/lang/IllegalStateException"
          "cannot load text page").1
        (p, -1)
      else
        (p, textPage)
    else
      let p := (jniThrowException p "java/lang/IllegalStateException" "cannot load text page").1
      (p, -1)

/-- Source: `nativeLoadPage`. -/
def nativeLoadPage (e : Engine) (p : Process) (doc : Option DocumentFile)
    (pageIndex : Int) : Process × Int :=
  loadPageInternal e p doc pageIndex

/-- Source: `nativeLoadTextPage`. -/
def nativeLoadTextPage (e : Engine) (p : Process) (doc : Option DocumentFile)
    (pagePtr : Int) : Process × Int :=
  loadTextPageInternal e p doc pagePtr

/-- Source: the loop `for(i = 0; i <= (toIndex - fromIndex); i++)
pages[i] = load(i + fromIndex)` of `nativeLoadPages` (lines 392-394) and
`nativeLoadTextPages` (lines 904-906), with `count` iterations left and
`index = i + fromIndex`.  Returns the state and the elements stored into
`pages` from position `i` on. -/
def loadEach (load : Process → Int → Process × Int) : Nat → Int → Process → Process × List Int
  | 0, _, p => (p, [])
  | count + 1, index, p =>
    let r := load p index
    let rest := loadEach load count (index + 1) r.1
    (rest.1, r.2 :: rest.2)

/-- The result of `int` arithmetic: the value when it fits in 32 bits.  Signed
overflow is undefined (`none`). -/
def checkedInt (v : Int) : Option Int :=
  if -2 ^ 31 ≤ v ∧ v < 2 ^ 31 then some v else none

/-- Source: `nativeLoadPages`.  The outer `none` is undefined behaviour: the
`int` expression `toIndex - fromIndex + 1` (the size of `pages`, line 389, and
the bound of the loop counter) overflows when the range holds `2^31` indices or
more.  Otherwise the result is the state after the call and the returned
reference: `none` for the `NULL` array reference, else the content of the
`long[]` that `NewLongArray` and `SetLongArrayRegion` fill from `pages`. -/
def nativeLoadPages (e : Engine) (p : Process) (doc : Option DocumentFile)
    (fromIndex toIndex : Int) : Option (Process × Option (List Int)) :=
  if toIndex < fromIndex then some (p, none)
  else
    match checkedInt (toIndex - fromIndex + 1) with
    | none => none
    | some length =>
      let r := loadEach (fun p index => loadPageInternal e p doc index)
        length.toNat fromIndex p
      some (r.1, some r.2)

/-- Source: `nativeLoadTextPages`.  As in the source, the loop hands the page
index `i + fromIndex` to `loadTextPageInternal` as its `pagePtr` argument.  The
outer `none` is undefined behaviour, as for `nativeLoadPages` (line 901). -/
def nativeLoadTextPages (e : Engine) (p : Process) (doc : Option DocumentFile)
    (fromIndex toIndex : Int) : Option (Process × Option (List Int)) :=
  if toIndex < fromIndex then some (p, none)
  else
    match checkedInt (toIndex - fromIndex + 1) with
    | none => none
    | some length =>
      let r := loadEach (fun p index => loadTextPageInternal e p doc index)
        length.toNat fromIndex p
      some (r.1, some r.2)

/-- The page indices of the `FPDF_LoadPage` calls in a list of calls. -/
def loadedPageIndices (calls : List Call) : List Int :=
  calls.filterMap
    (fun c =>
      match c with
      | .FPDF_LoadPage _ pageIndex => some pageIndex
      | _ => none)

/-! ## Page geometry (lines 411-427) -/

/-- Conversion of a `double` to an integer type discards the fractional part. -/
def truncate (x : ℚ) : Int :=
  if 0 ≤ x then ⌊x⌋ else ⌈x⌉

/-- The cast `(jint)` of a `double`: the truncated value when it fits in 32
bits.  The conversion is undefined otherwise (`none`). -/
def toJint (x : ℚ) : Option Int :=
  if -2 ^ 31 ≤ truncate x ∧ truncate x < 2 ^ 31 then some (truncate x) else none

/-- Source: `nativeGetPageWidthPixel`, the `double` product and quotient taken
in exact arithmetic (`nativeGetPageWidthPixelRounded` rounds them). -/
def nativeGetPageWidthPixel (e : Engine) (pagePtr : Int) (dpi : Int) : Option Int :=
  toJint (e.FPDF_GetPageWidth pagePtr * dpi / 72)

/-- Source: `nativeGetPageHeightPixel`, the `double` product and quotient taken
in exact arithmetic (`nativeGetPageHeightPixelRounded` rounds them). -/
def nativeGetPageHeightPixel (e : Engine) (pagePtr : Int) (dpi : Int) : Option Int :=
  toJint (e.FPDF_GetPageHeight pagePtr * dpi / 72)

/-- Source: `nativeGetPageWidthPoint`. -/
def nativeGetPageWidthPoint (e : Engine) (pagePtr : Int) : Option Int :=
  toJint (e.FPDF_GetPageWidth pagePtr)

/-- Source: `nativeGetPageHeightPoint`. -/
def nativeGetPageHeightPoint (e : Engine) (pagePtr : Int) : Option Int :=
  toJint (e.FPDF_GetPageHeight pagePtr)

/-- Rounding to the nearest integer, a tie going to the even one. -/
def roundHalfEven (s : ℚ) : Int :=
  if s - ⌊s⌋ < 1 / 2 then ⌊s⌋
  else if 1 / 2 < s - ⌊s⌋ then ⌊s⌋ + 1
  else if ⌊s⌋ % 2 = 0 then ⌊s⌋ else ⌊s⌋ + 1

/-- The `double` nearest to a positive real (IEEE 754 binary64, round to
nearest, ties to even, normal range): with `2^e ≤ x < 2^(e+1)`, the 53-bit
significand is `x / 2^(e - 52)` rounded to an integer. -/
def roundPositive (x : ℚ) : ℚ :=
  (roundHalfEven (x / 2 ^ (Int.log 2 x - 52)) : ℚ) * 2 ^ (Int.log 2 x - 52)

/-- The `double` nearest to a real: the result of one `double` operation whose
exact result is `x`. -/
def roundDouble (x : ℚ) : ℚ :=
  if 0 < x then roundPositive x else if x < 0 then -roundPositive (-x) else 0

/-- What the page geometry uses of a rounding to `double`: it is monotone, and
it leaves `k / 128` as it is when `|k| < 2^53` (these values are `double`
values). -/
def RoundsToDouble (fl : ℚ → ℚ) : Prop :=
  (∀ x y : ℚ, x ≤ y → fl x ≤ fl y) ∧
    ∀ k : Int, -2 ^ 53 < k → k < 2 ^ 53 → fl ((k : ℚ) / 128) = (k : ℚ) / 128

/-- Source: `nativeGetPageWidthPixel`, each `double` operation of line 413
rounded by `fl`: `dpi` and 72 are converted exactly, the product is rounded,
the quotient is rounded, and `(jint)` truncates. -/
def nativeGetPageWidthPixelRounded (fl : ℚ → ℚ) (e : Engine) (pagePtr : Int) (dpi : Int) :
    Option Int :=
  toJint (fl (fl (e.FPDF_GetPageWidth pagePtr * dpi) / 72))

/-- Source: `nativeGetPageHeightPixel`, each `double` operation of line 417
rounded by `fl`. -/
def nativeGetPageHeightPixelRounded (fl : ℚ → ℚ) (e : Engine) (pagePtr : Int) (dpi : Int) :
    Option Int :=
  toJint (fl (fl (e.FPDF_GetPageHeight pagePtr * dpi) / 72))

/-! ## Rendering (lines 213-238 and 454-715) -/

/-- What the engine answers during one render: the handle of the bitmap that
`FPDFBitmap_CreateEx` binds to a buffer and the handle of the form environment
that `FPDFDOC_InitFormFillEnvironment` creates (`0` for `NULL`).  The constants
are those of the engine headers `fpdfview.h` and `fpdf_formfill.h`, which are
not part of this repository; they are parameters. -/
structure RenderEngine where
  FPDFBitmap_BGR : Int
  FPDFBitmap_BGRA : Int
  FPDF_ANNOT : Nat
  FPDF_REVERSE_BYTE_ORDER : Nat
  FPDFPAGE_AACTION_OPEN : Int
  FPDFBitmap_CreateEx : (width height format buffer stride : Int) → Int
  FPDFDOC_InitFormFillEnvironment : (document : Int) → Int

/-- The fields of `AndroidBitmapInfo` that the code reads. -/
structure AndroidBitmapInfo where
  width : Int
  height : Int
  stride : Int
  format : Int
  deriving DecidableEq, Repr

/-- What the Android bitmap functions and `malloc` answer during one render.
`AndroidBitmap_getInfo` answers its return code and the info it writes,
`AndroidBitmap_lockPixels` its return code and the address of the pixels.  The
two format constants are those of `android/bitmap.h`. -/
structure Android where
  ANDROID_BITMAP_FORMAT_RGBA_8888 : Int
  ANDROID_BITMAP_FORMAT_RGB_565 : Int
  AndroidBitmap_getInfo : (bitmap : Int) → Int × AndroidBitmapInfo
  AndroidBitmap_lockPixels : (bitmap : Int) → Int × Int
  malloc : (size : Int) → Int

/-- Source: the values `baseX`, `baseY`, `baseHorSize`, `baseVerSize` of
`renderPageInternal` (lines 477-480) and of `nativeRenderPageBitmap` (lines
679-682): the rectangle that is filled white. -/
def baseRect (startX startY canvasHorSize canvasVerSize drawSizeHor drawSizeVer : Int) :
    Int × Int × Int × Int :=
  let baseHorSize := if canvasHorSize < drawSizeHor then canvasHorSize else drawSizeHor
  let baseVerSize := if canvasVerSize < drawSizeVer then canvasVerSize else drawSizeVer
  let baseX := if startX < 0 then 0 else startX
  let baseY := if startY < 0 then 0 else startY
  (baseX, baseY, baseHorSize, baseVerSize)

/-- Source: lines 472-493 of `renderPageInternal`, repeated verbatim as lines
674-695 of `nativeRenderPageBitmap`: the gray fill, the white fill and the
rasterization of the page.  Returns the state and `flags`. -/
def fillAndRender (r : RenderEngine) (p : Process) (pdfBitmap page : Int)
    (startX startY canvasHorSize canvasVerSize drawSizeHor drawSizeVer : Int)
    (renderAnnot : Bool) : Process × Nat :=
  let p :=
    if drawSizeHor < canvasHorSize ∨ drawSizeVer < canvasVerSize then
      p.call (.FPDFBitmap_FillRect pdfBitmap 0 0 canvasHorSize canvasVerSize 0x848484FF)
    else p
  let base := baseRect startX startY canvasHorSize canvasVerSize drawSizeHor drawSizeVer
  let flags := r.FPDF_REVERSE_BYTE_ORDER
  let flags := if renderAnnot then flags ||| r.FPDF_ANNOT else flags
  let p := p.call (.FPDFBitmap_FillRect pdfBitmap base.1 base.2.1 base.2.2.1 base.2.2.2 0xFFFFFFFF)
  let p := p.call
    (.FPDF_RenderPageBitmap pdfBitmap page startX startY drawSizeHor drawSizeVer 0 flags)
  (p, flags)

/-- Source: `renderPageInternal`.  `bits` and `stride` are the fields of
`windowBuffer` that the code reads. -/
def renderPageInternal (r : RenderEngine) (p : Process) (page bits stride : Int)
    (startX startY canvasHorSize canvasVerSize drawSizeHor drawSizeVer : Int)
    (renderAnnot : Bool) : Process :=
  let pdfBitmap :=
    r.FPDFBitmap_CreateEx canvasHorSize canvasVerSize r.FPDFBitmap_BGRA bits (stride * 4)
  let p := p.call
    (.FPDFBitmap_CreateEx canvasHorSize canvasVerSize r.FPDFBitmap_BGRA bits (stride * 4))
  (fillAndRender r p pdfBitmap page startX startY canvasHorSize canvasVerSize
    drawSizeHor drawSizeVer renderAnnot).1

/-- Source: `PDFForm_Render`.  Returns the state, the `DocumentFile` with its
new `m_form`, and the `bool` result. -/
def PDFForm_Render (r : RenderEngine) (p : Process) (docFile : DocumentFile) :
    Process × DocumentFile × Bool :=
  let m_form := r.FPDFDOC_InitFormFillEnvironment docFile.pdfDocument
  let p := p.call (.FPDFDOC_InitFormFillEnvironment docFile.pdfDocument)
  let docFile := DocumentFile.mk docFile.pdfDocument m_form
  if docFile.m_form = 0 then (p, docFile, false)
  else
    let p := p.call (.FPDF_SetFormFieldHighlightColor docFile.m_form 0 0xFFFFFF)
    let p := p.call (.FPDF_SetFormFieldHighlightAlpha docFile.m_form 100)
    let p := p.call (.FORM_DoDocumentJSAction docFile.m_form)
    let p := p.call (.FORM_DoDocumentOpenAction docFile.m_form)
    (p, docFile, true)

/-- Source: `nativeRenderPageBitmap` (the live definition, lines 618-715).
`doc` is the object that `docPtr` points to; the result is the state and that
object after the call.  `sizeof(rgb)` is 3. -/
def nativeRenderPageBitmap (r : RenderEngine) (a : Android) (p : Process) (doc : DocumentFile)
    (pagePtr bitmap _dpi startX startY drawSizeHor drawSizeVer : Int) (renderAnnot : Bool) :
    Process × DocumentFile :=
  let page := pagePtr
  if page = 0 ∨ bitmap = 0 then (p, doc)
  else
    let ret := (a.AndroidBitmap_getInfo bitmap).1
    let info := (a.AndroidBitmap_getInfo bitmap).2
    if ret < 0 then (p, doc)
    else
      let canvasHorSize := info.width
      let canvasVerSize := info.height
      if info.format ≠ a.ANDROID_BITMAP_FORMAT_RGBA_8888 ∧
          info.format ≠ a.ANDROID_BITMAP_FORMAT_RGB_565 then (p, doc)
      else
        let ret := (a.AndroidBitmap_lockPixels bitmap).1
        let addr := (a.AndroidBitmap_lockPixels bitmap).2
        let p := p.call (.AndroidBitmap_lockPixels bitmap)
        if ret ≠ 0 then (p, doc)
        else
          let is565 := info.format = a.ANDROID_BITMAP_FORMAT_RGB_565
          let tmp := if is565 then a.malloc (canvasVerSize * canvasHorSize * 3) else addr
          let p := if is565 then p.call (.malloc (canvasVerSize * canvasHorSize * 3)) else p
          let sourceStride := if is565 then canvasHorSize * 3 else info.stride
          let format := if is565 then r.FPDFBitmap_BGR else r.FPDFBitmap_BGRA
          let pdfBitmap :=
            r.FPDFBitmap_CreateEx canvasHorSize canvasVerSize format tmp sourceStride
          let p := p.call
            (.FPDFBitmap_CreateEx canvasHorSize canvasVerSize format tmp sourceStride)
          let rendered := fillAndRender r p pdfBitmap page startX startY
            canvasHorSize canvasVerSize drawSizeHor drawSizeVer renderAnnot
          let p := rendered.1
          let flags := rendered.2
          let p := p.call (.changeBitmapBR addr)
          let formed := PDFForm_Render r p doc
          let p := formed.1
          let doc := formed.2.1
          let p := p.call (.FORM_OnAfterLoadPage page doc.m_form)
          let p := p.call (.FORM_DoPageAAction page doc.m_form r.FPDFPAGE_AACTION_OPEN)
          let p := p.call
            (.FPDF_FFLDraw doc.m_form pdfBitmap page startX startY drawSizeHor drawSizeVer
              0 flags)
          let p := p.call (.changeBitmapBR addr)
          let p := p.call (.AndroidBitmap_unlockPixels bitmap)
          (p, doc)

/-- One form-aware render on a document handle: what the collaborators answer
during it, and its arguments. -/
structure RenderRequest where
  engine : RenderEngine
  android : Android
  pagePtr : Int
  bitmap : Int
  dpi : Int
  startX : Int
  startY : Int
  drawSizeHor : Int
  drawSizeVer : Int
  renderAnnot : Bool

/-- A sequence of form-aware renders on the same document handle, in order. -/
def renderAll (p : Process) (doc : DocumentFile) : List RenderRequest → Process × DocumentFile
  | [] => (p, doc)
  | q :: rest =>
    let done := nativeRenderPageBitmap q.engine q.android p doc q.pagePtr q.bitmap q.dpi
      q.startX q.startY q.drawSizeHor q.drawSizeVer q.renderAnnot
    renderAll done.1 done.2 rest

/-- A render passes the entry checks of `nativeRenderPageBitmap`: page and
bitmap are not null, the info is fetched, the format is one of the two accepted
ones, and the pixels are locked. -/
def RenderRequest.admitted (q : RenderRequest) : Bool :=
  decide (q.pagePtr ≠ 0) && decide (q.bitmap ≠ 0) &&
    decide (0 ≤ (q.android.AndroidBitmap_getInfo q.bitmap).1) &&
    (decide ((q.android.AndroidBitmap_getInfo q.bitmap).2.format =
        q.android.ANDROID_BITMAP_FORMAT_RGBA_8888) ||
      decide ((q.android.AndroidBitmap_getInfo q.bitmap).2.format =
        q.android.ANDROID_BITMAP_FORMAT_RGB_565)) &&
    decide ((q.android.AndroidBitmap_lockPixels q.bitmap).1 = 0)

/-! ## Pixels of a bitmap -/

/-- The content of a bitmap: the colour value at column `x`, row `y`. -/
abbrev Canvas := Int → Int → Int

/-- The effect of the engine function `FPDFBitmap_FillRect` on a bitmap of
`canvasWidth` by `canvasHeight` pixels, as the engine header documents it: the
pixels of the bitmap inside the rectangle take the colour, all others keep
theirs. -/
def fillRect (canvasWidth canvasHeight : Int) (c : Canvas)
    (left top width height color : Int) : Canvas :=
  fun x y =>
    if 0 ≤ x ∧ x < canvasWidth ∧ 0 ≤ y ∧ y < canvasHeight ∧
        left ≤ x ∧ x < left + width ∧ top ≤ y ∧ y < top + height then color
    else c x y

/-- The content of the bitmap `pdfBitmap` after the `FPDFBitmap_FillRect` calls
of a list of calls, applied in order to the content `c`. -/
def paintFills (pdfBitmap canvasWidth canvasHeight : Int) (calls : List Call) (c : Canvas) :
    Canvas :=
  calls.foldl
    (fun c call =>
      match call with
      | .FPDFBitmap_FillRect bitmap left top width height color =>
        if bitmap = pdfBitmap then fillRect canvasWidth canvasHeight c left top width height color
        else c
      | _ => c)
    c

/-- Pixel `(x, y)` lies in the rectangle with origin `(rect.1, rect.2.1)` and
size `(rect.2.2.1, rect.2.2.2)`. -/
def inRect (rect : Int × Int × Int × Int) (x y : Int) : Prop :=
  rect.1 ≤ x ∧ x < rect.1 + rect.2.2.1 ∧ rect.2.1 ≤ y ∧ y < rect.2.1 + rect.2.2.2

instance (rect : Int × Int × Int × Int) (x y : Int) : Decidable (inRect rect x y) := by
  unfold inRect
  infer_instance

/-! ## Queries (lines 428-452 and 810-824) -/

/-- What the engine answers to the queries on page size and links.
`FPDF_GetPageSizeByIndex` answers its return code and the width and height it
writes; `FPDFLink_GetAction` the action of a link (`0` for `NULL`);
`FPDFAction_GetURIPath` the length it returns (the bytes needed, terminator
included) and the path it writes into a buffer of that length. -/
structure QueryEngine where
  FPDF_GetPageSizeByIndex : (document pageIndex : Int) → Int × ℚ × ℚ
  FPDFLink_GetAction : (link : Int) → Int
  FPDFAction_GetURIPath : (document action : Int) → Nat × String

/-- The Java object `com.shockwave.pdfium.util.Size`, built from the two
converted values; a component is `none` when its conversion to `jint` is
undefined. -/
structure Size where
  width : Option Int
  height : Option Int
  deriving DecidableEq, Repr

/-- Source: `nativeGetPageSizeByIndex`.  The result is `none` for `NULL`. -/
def nativeGetPageSizeByIndex (g : QueryEngine) (p : Process) (doc : Option DocumentFile)
    (pageIndex dpi : Int) : Process × Option Size :=
  match doc with
  | none =>
    let p := (jniThrowException p "java/lang/IllegalStateException" "Document is null").1
    (p, none)
  | some d =>
    let answer := g.FPDF_GetPageSizeByIndex d.pdfDocument pageIndex
    let p := p.call (.FPDF_GetPageSizeByIndex d.pdfDocument pageIndex)
    let result := answer.1
    let width : ℚ := if result = 0 then 0 else answer.2.1
    let height : ℚ := if result = 0 then 0 else answer.2.2
    let widthInt := toJint (width * dpi / 72)
    let heightInt := toJint (height * dpi / 72)
    (p, some ⟨widthInt, heightInt⟩)

/-- Source: `nativeGetLinkURI`.  The result is `none` for `NULL`, otherwise the
Java string.  The string `uri` has `bufferLen - 1` characters, so the path the
engine writes is read up to that length. -/
def nativeGetLinkURI (g : QueryEngine) (doc : DocumentFile) (linkPtr : Int) : Option String :=
  let link := linkPtr
  let action := g.FPDFLink_GetAction link
  if action = 0 then none
  else
    let bufferLen := (g.FPDFAction_GetURIPath doc.pdfDocument action).1
    if bufferLen ≤ 0 then some ""
    else
      let uri := String.mk ((g.FPDFAction_GetURIPath doc.pdfDocument action).2.data.take
        (bufferLen - 1))
      some uri

/-! ## The channel swap (lines 29-33 and 192-210) -/

/-- Source: macro `RGBA_A`. -/
def RGBA_A (p : Nat) : Nat := (p &&& 0xFF000000) >>> 24

/-- Source: macro `RGBA_R`. -/
def RGBA_R (p : Nat) : Nat := (p &&& 0x00FF0000) >>> 16

/-- Source: macro `RGBA_G`. -/
def RGBA_G (p : Nat) : Nat := (p &&& 0x0000FF00) >>> 8

/-- Source: macro `RGBA_B`. -/
def RGBA_B (p : Nat) : Nat := p &&& 0x000000FF

/-- Source: macro `MAKE_RGBA`. -/
def MAKE_RGBA (r g b a : Nat) : Nat := (a <<< 24) ||| (r <<< 16) ||| (g <<< 8) ||| b

/-- Source: the body of the inner loop of `changeBitmapBR` (lines 198-207) on
the pixel value `v`.  The store into the `uint32_t` pixel is modulo `2^32`. -/
def swapBR (v : Nat) : Nat :=
  let a := RGBA_A v
  let r := RGBA_R v
  let g := RGBA_G v
  let b := RGBA_B v
  MAKE_RGBA b g r a % 2 ^ 32

/-- Source: `changeBitmapBR`.  `pixels` is the buffer as a sequence of 32-bit
values; row `y`, column `x` is the value at index `y * width + x`.  The two
`for` loops run over `y = 0 .. height - 1` and `x = 0 .. width - 1`. -/
def changeBitmapBR (width height : Nat) (pixels : List Nat) : List Nat :=
  (List.range height).foldl
    (fun pixels y =>
      (List.range width).foldl
        (fun pixels x =>
          let pixel := y * width + x
          let v := pixels.getD pixel 0
          pixels.set pixel (swapBR v))
        pixels)
    pixels

/-! ## Example collaborators -/

/-- An engine with the error constants of `fpdfview.h` that never produces a
document, page or text page and reports `FPDF_ERR_FORMAT` as its last error. -/
def refusingEngine : Engine where
  FPDF_ERR_SUCCESS := 0
  FPDF_ERR_FILE := 2
  FPDF_ERR_FORMAT := 3
  FPDF_ERR_PASSWORD := 4
  FPDF_ERR_SECURITY := 5
  FPDF_ERR_PAGE := 6
  FPDF_LoadCustomDocument := fun _ _ _ => 0
  FPDF_LoadMemDocument := fun _ _ _ => 0
  FPDF_GetLastError := 3
  FPDF_LoadPage := fun _ _ => 0
  FPDFText_LoadPage := fun _ => 0
  FPDF_GetPageWidth := fun _ => 0
  FPDF_GetPageHeight := fun _ => 0

/-- An engine serving one document, handle 7, of three pages: page `i` has
handle `1000 + i`, its text page has handle `2000 + i`. -/
def threePageEngine : Engine :=
  { refusingEngine with
    FPDF_LoadCustomDocument := fun _ _ _ => 7
    FPDF_LoadMemDocument := fun _ _ _ => 7
    FPDF_GetLastError := 0
    FPDF_LoadPage := fun document i => if document = 7 ∧ 0 ≤ i ∧ i < 3 then 1000 + i else 0
    FPDFText_LoadPage := fun page => if 1000 ≤ page ∧ page < 1003 then page + 1000 else 0 }

/-- An engine for a document, handle 7, whose page 0 cannot be loaded while
page 1, handle 1001, can. -/
def pageZeroMissingEngine : Engine :=
  { refusingEngine with
    FPDF_LoadPage := fun _ i => if i = 1 then 1001 else 0 }

/-- An engine whose pages are US Letter, 612 by 792 points. -/
def letterEngine : Engine :=
  { threePageEngine with
    FPDF_GetPageWidth := fun _ => 612
    FPDF_GetPageHeight := fun _ => 792 }

/-- An engine whose pages are A4, 595.276 by 841.89 points. -/
def a4Engine : Engine :=
  { threePageEngine with
    FPDF_GetPageWidth := fun _ => 595276 / 1000
    FPDF_GetPageHeight := fun _ => 84189 / 100 }

/-- An engine whose pages are `2^30` points wide and 792 points high. -/
def vastPageEngine : Engine :=
  { threePageEngine with
    FPDF_GetPageWidth := fun _ => 1073741824
    FPDF_GetPageHeight := fun _ => 792 }

/-- An engine whose pages are `0x1.f466666666666p+8` points wide, the `double`
next below 500.4, and 792 points high. -/
def offGridEngine : Engine :=
  { threePageEngine with
    FPDF_GetPageWidth := fun _ => 4401564948312883 / 8796093022208
    FPDF_GetPageHeight := fun _ => 792 }

/-- A 64-bit host on which descriptor 3 is a file of 1024 bytes, every other
descriptor fails `fstat`, and the allocator answers address 4096. -/
def exampleHost : Host where
  longBits := 64
  fstat := fun fd => if fd = 3 then some 1024 else none
  operator_new := 4096

/-- A render engine with the constants of the engine headers.  It binds every
buffer to bitmap handle 300 and creates form environment 900. -/
def exampleRenderer : RenderEngine where
  FPDFBitmap_BGR := 2
  FPDFBitmap_BGRA := 4
  FPDF_ANNOT := 1
  FPDF_REVERSE_BYTE_ORDER := 16
  FPDFPAGE_AACTION_OPEN := 0
  FPDFBitmap_CreateEx := fun _ _ _ _ _ => 300
  FPDFDOC_InitFormFillEnvironment := fun _ => 900

/-- A render engine that cannot create a form environment. -/
def formlessRenderer : RenderEngine :=
  { exampleRenderer with FPDFDOC_InitFormFillEnvironment := fun _ => 0 }

/-- A render engine whose second form environment has handle 901. -/
def secondRenderer : RenderEngine :=
  { exampleRenderer with FPDFDOC_InitFormFillEnvironment := fun _ => 901 }

/-- An Android side with the format constants of `android/bitmap.h`: every
bitmap is 2 by 2 pixels in `RGBA_8888`, its pixels lock at address 8192, and
`malloc` answers 12288. -/
def exampleAndroid : Android where
  ANDROID_BITMAP_FORMAT_RGBA_8888 := 1
  ANDROID_BITMAP_FORMAT_RGB_565 := 4
  AndroidBitmap_getInfo := fun _ => (0, ⟨2, 2, 8, 1⟩)
  AndroidBitmap_lockPixels := fun _ => (0, 8192)
  malloc := fun _ => 12288

/-- The same Android side with bitmaps in `RGB_565`, two bytes per pixel. -/
def rgb565Android : Android :=
  { exampleAndroid with AndroidBitmap_getInfo := fun _ => (0, ⟨2, 2, 4, 4⟩) }

/-- A query engine for a document, handle 7, with one page of 612 by 792
points at index 0 and no size for any other index.  Link 40 has no action,
link 41 has action 50 with the path "http://a", link 42 has action 51, which
is not a URI action (path length 0). -/
def exampleQueries : QueryEngine where
  FPDF_GetPageSizeByIndex := fun document pageIndex =>
    if document = 7 ∧ pageIndex = 0 then (1, 612, 792) else (0, 0, 0)
  FPDFLink_GetAction := fun link => if link = 41 then 50 else if link = 42 then 51 else 0
  FPDFAction_GetURIPath := fun _ action => if action = 50 then (9, "http://a") else (0, "")

/-! ## Predicates and examples used by the theorems -/

/-- The invariant of the engine lifecycle: the count is the number of live
handles, and the engine is initialised exactly when the count is positive. -/
def LifecycleInv (p : Process) : Prop :=
  p.sLibraryReferenceCount = p.heap.length ∧
    (engineInitialised p.trace = true ↔ 0 < p.sLibraryReferenceCount)

/-- The exception that a failed load raises, by the last-error code of the
engine. -/
def openFailure (e : Engine) : String × String :=
  if e.FPDF_GetLastError = e.FPDF_ERR_PASSWORD then
    ("com/shockwave/pdfium/PdfPasswordException", "Password required or incorrect password.")
  else
    ("java/io/IOException", "cannot create document: " ++ getErrorDescription e e.FPDF_GetLastError)

/-- A run that opens two handles, assigns a document to the first, closes both
and opens a third. -/
def lifecycleExample : List LifecycleOp :=
  [.construct 8, .construct 16, .assign 8 5, .destruct 8, .destruct 16, .construct 8]

/-- The calls of the fill and rasterization block, on their own. -/
def fillCalls (r : RenderEngine) (pdfBitmap page : Int)
    (startX startY canvasHorSize canvasVerSize drawSizeHor drawSizeVer : Int)
    (renderAnnot : Bool) : List Call :=
  (fillAndRender r Process.initial pdfBitmap page startX startY canvasHorSize canvasVerSize
    drawSizeHor drawSizeVer renderAnnot).1.trace

/-- The handle of the bitmap that `nativeRenderPageBitmap` creates for a
request: the value of `pdfBitmap` at line 664. -/
def RenderRequest.pdfBitmap (q : RenderRequest) : Int :=
  let info := (q.android.AndroidBitmap_getInfo q.bitmap).2
  let addr := (q.android.AndroidBitmap_lockPixels q.bitmap).2
  let is565 := info.format = q.android.ANDROID_BITMAP_FORMAT_RGB_565
  let tmp := if is565 then q.android.malloc (info.height * info.width * 3) else addr
  let sourceStride := if is565 then info.width * 3 else info.stride
  let format := if is565 then q.engine.FPDFBitmap_BGR else q.engine.FPDFBitmap_BGRA
  q.engine.FPDFBitmap_CreateEx info.width info.height format tmp sourceStride

/-- The form-aware render of a request on the document object `doc`. -/
def RenderRequest.run (q : RenderRequest) (p : Process) (doc : DocumentFile) :
    Process × DocumentFile :=
  nativeRenderPageBitmap q.engine q.android p doc q.pagePtr q.bitmap q.dpi
    q.startX q.startY q.drawSizeHor q.drawSizeVer q.renderAnnot

/-- The value of `flags` in a render: `FPDF_REVERSE_BYTE_ORDER`, with
`FPDF_ANNOT` when annotations are requested. -/
def RenderRequest.flags (q : RenderRequest) : Nat :=
  (fillAndRender q.engine Process.initial q.pdfBitmap q.pagePtr q.startX q.startY
    (q.android.AndroidBitmap_getInfo q.bitmap).2.width
    (q.android.AndroidBitmap_getInfo q.bitmap).2.height
    q.drawSizeHor q.drawSizeVer q.renderAnnot).2

/-- The calls of an admitted render up to the creation of the bitmap. -/
def RenderRequest.setupCalls (q : RenderRequest) : List Call :=
  let info := (q.android.AndroidBitmap_getInfo q.bitmap).2
  let addr := (q.android.AndroidBitmap_lockPixels q.bitmap).2
  let is565 := info.format = q.android.ANDROID_BITMAP_FORMAT_RGB_565
  let tmp := if is565 then q.android.malloc (info.height * info.width * 3) else addr
  let sourceStride := if is565 then info.width * 3 else info.stride
  let format := if is565 then q.engine.FPDFBitmap_BGR else q.engine.FPDFBitmap_BGRA
  Call.AndroidBitmap_lockPixels q.bitmap ::
    ((if is565 then [Call.malloc (info.height * info.width * 3)] else []) ++
      [Call.FPDFBitmap_CreateEx info.width info.height format tmp sourceStride])

/-- The calls of an admitted render after the rasterization of the page, when
the engine answers `form` to `FPDFDOC_InitFormFillEnvironment`. -/
def RenderRequest.formCalls (q : RenderRequest) (document form : Int) : List Call :=
  let addr := (q.android.AndroidBitmap_lockPixels q.bitmap).2
  [Call.changeBitmapBR addr, Call.FPDFDOC_InitFormFillEnvironment document] ++
    (if form = 0 then []
      else [Call.FPDF_SetFormFieldHighlightColor form 0 0xFFFFFF,
        Call.FPDF_SetFormFieldHighlightAlpha form 100,
        Call.FORM_DoDocumentJSAction form, Call.FORM_DoDocumentOpenAction form]) ++
    [Call.FORM_OnAfterLoadPage q.pagePtr form,
      Call.FORM_DoPageAAction q.pagePtr form q.engine.FPDFPAGE_AACTION_OPEN,
      Call.FPDF_FFLDraw form q.pdfBitmap q.pagePtr q.startX q.startY q.drawSizeHor
        q.drawSizeVer 0 q.flags,
      Call.changeBitmapBR addr, Call.AndroidBitmap_unlockPixels q.bitmap]

/-- A request for page 1000 into bitmap 55 at origin (0, 0) with draw size 2 by 2. -/
def exampleRequest : RenderRequest where
  engine := exampleRenderer
  android := exampleAndroid
  pagePtr := 1000
  bitmap := 55
  dpi := 72
  startX := 0
  startY := 0
  drawSizeHor := 2
  drawSizeVer := 2
  renderAnnot := false

/-- The example request with an engine that cannot create a form environment. -/
def formlessRequest : RenderRequest :=
  { exampleRequest with engine := formlessRenderer }

/-- The example request again, answered with a second form environment. -/
def secondRequest : RenderRequest :=
  { exampleRequest with engine := secondRenderer }

/-- The example request into a bitmap in `RGB_565`. -/
def rgb565Request : RenderRequest :=
  { exampleRequest with android := rgb565Android }

/-- A process with one live handle at address 4096: document 7 with form
environment 900. -/
def formDocumentProcess : Process :=
  { sLibraryReferenceCount := 1, heap := [(4096, ⟨7, 900⟩)], trace := [] }

/-! ## Lemmas on the engine lifecycle -/

theorem engineInitialised_append (t l : List Call) :
    engineInitialised (t ++ l) =
      l.foldl
        (fun up c =>
          match c with
          | .FPDF_InitLibrary => true
          | .FPDF_DestroyLibrary => false
          | _ => up)
        (engineInitialised t) := by
  simp [engineInitialised, List.foldl_append]

theorem exists_mem_of_lookup_eq_some {a : Int} {d : DocumentFile} :
    ∀ {l : List (Int × DocumentFile)}, l.lookup a = some d → ∃ x ∈ l, (x.1 == a) = true
  | [], h => by simp at h
  | (b, e) :: l, h => by
    by_cases hab : a = b
    · exact ⟨(b, e), by simp, by simp [hab]⟩
    · have hne : (a == b) = false := by simpa using hab
      rw [List.lookup_cons, hne] at h
      obtain ⟨x, hx, hxa⟩ := exists_mem_of_lookup_eq_some h
      exact ⟨x, List.mem_cons_of_mem _ hx, hxa⟩

theorem length_eraseP_of_lookup {a : Int} {d : DocumentFile} {l : List (Int × DocumentFile)}
    (h : l.lookup a = some d) :
    ((l.eraseP (fun o => o.1 == a)).length : Int) = l.length - 1 := by
  obtain ⟨x, hx, hxa⟩ := exists_mem_of_lookup_eq_some h
  have hpos : 0 < l.length := List.length_pos_of_mem hx
  rw [List.length_eraseP_of_mem hx hxa]
  omega

theorem lifecycleInv_initial : LifecycleInv Process.initial := by
  simp [LifecycleInv, Process.initial, engineInitialised]

theorem lifecycleInv_step (p : Process) (op : LifecycleOp) (hp : LifecycleInv p)
    (hv : op.valid p = true) : LifecycleInv (op.step p) := by
  obtain ⟨hc, he⟩ := hp
  have hnn : 0 ≤ p.sLibraryReferenceCount := by omega
  cases op with
  | construct addr =>
    simp only [LifecycleOp.step, new_DocumentFile, initLibraryIfNeed, Process.call, LifecycleInv]
    by_cases h0 : p.sLibraryReferenceCount = 0
    · simp [h0, engineInitialised_append, ← hc]
    · have hpos : 0 < p.sLibraryReferenceCount := by omega
      simp [h0, engineInitialised_append, ← hc, he.2 hpos]
      omega
  | assign addr document =>
    simpa [LifecycleOp.step, Process.setDocument, LifecycleInv] using ⟨hc, he⟩
  | destruct addr =>
    simp only [LifecycleOp.valid, Option.isSome_iff_exists] at hv
    obtain ⟨d, hd⟩ := hv
    have hlen := length_eraseP_of_lookup hd
    have hpos : 0 < p.heap.length := by
      obtain ⟨x, hx, _⟩ := exists_mem_of_lookup_eq_some hd
      exact List.length_pos_of_mem hx
    simp only [LifecycleOp.step, delete_DocumentFile, hd, DocumentFile.destructor,
      destroyLibraryIfNeed, Process.call, LifecycleInv]
    by_cases h1 : p.sLibraryReferenceCount - 1 = 0
    · by_cases hdoc : d.pdfDocument = 0 <;>
        simp [h1, hdoc, engineInitialised_append, hlen, ← hc]
    · have hgt : 0 < p.sLibraryReferenceCount - 1 := by omega
      have hup : engineInitialised p.trace = true := he.2 (by omega)
      by_cases hdoc : d.pdfDocument = 0 <;>
        simp [h1, hdoc, engineInitialised_append, hlen, ← hc, hup, hgt]

theorem lifecycleInv_run (ops : List LifecycleOp) :
    ∀ (p : Process), LifecycleInv p → validLifecycle p ops = true →
      LifecycleInv (runLifecycle p ops) := by
  induction ops with
  | nil => intro p hp _; simpa [runLifecycle] using hp
  | cons op ops ih =>
    intro p hp hv
    simp only [validLifecycle, Bool.and_eq_true] at hv
    simpa [runLifecycle] using ih (op.step p) (lifecycleInv_step p op hp hv.1) hv.2

theorem lifecycle_step_calls (p : Process) (op : LifecycleOp) (hp : LifecycleInv p)
    (hv : op.valid p = true) :
    (p.since (op.step p)).count Call.FPDF_InitLibrary =
        (if p.sLibraryReferenceCount = 0 ∧ (op.step p).sLibraryReferenceCount = 1
          then 1 else 0) ∧
      (p.since (op.step p)).count Call.FPDF_DestroyLibrary =
        (if p.sLibraryReferenceCount = 1 ∧ (op.step p).sLibraryReferenceCount = 0
          then 1 else 0) := by
  obtain ⟨hc, -⟩ := hp
  have hnn : 0 ≤ p.sLibraryReferenceCount := by omega
  cases op with
  | construct addr =>
    simp only [LifecycleOp.step, new_DocumentFile, initLibraryIfNeed, Process.call,
      Process.since]
    by_cases h0 : p.sLibraryReferenceCount = 0
    · simp [h0]
    · have h1 : ¬ p.sLibraryReferenceCount + 1 = 0 := by omega
      simp [h0, h1]
  | assign addr document =>
    have h10 : ¬ (p.sLibraryReferenceCount = 0 ∧ p.sLibraryReferenceCount = 1) := by omega
    have h01 : ¬ (p.sLibraryReferenceCount = 1 ∧ p.sLibraryReferenceCount = 0) := by omega
    simp [LifecycleOp.step, Process.setDocument, Process.since, h10, h01]
  | destruct addr =>
    simp only [LifecycleOp.valid, Option.isSome_iff_exists] at hv
    obtain ⟨d, hd⟩ := hv
    simp only [LifecycleOp.step, delete_DocumentFile, hd, DocumentFile.destructor,
      destroyLibraryIfNeed, Process.call, Process.since]
    by_cases h1 : p.sLibraryReferenceCount - 1 = 0
    · have h1eq : p.sLibraryReferenceCount = 1 := by omega
      by_cases hdoc : d.pdfDocument = 0 <;> simp [h1eq, hdoc]
    · have h1ne : ¬ p.sLibraryReferenceCount = 1 := by omega
      have h0ne : ¬ (p.sLibraryReferenceCount = 0 ∧ p.sLibraryReferenceCount - 1 = 1) := by
        omega
      by_cases hdoc : d.pdfDocument = 0 <;> simp [h1, h1ne, h0ne, hdoc]

/-! ## Lemmas on opening a document -/

theorem msgBuf_cannot_create_document (e : Engine) (error : Int) :
    String.mk (("cannot create document: " ++ getErrorDescription e error).data.take 511) =
      "cannot create document: " ++ getErrorDescription e error := by
  unfold getErrorDescription
  split_ifs <;> rfl

/-- A handle constructed at `a`, one engine call `c`, then the failure block:
the state is restored and the calls are exactly these. -/
theorem openFailed_after_new (e : Engine) (p : Process) (a : Int) (c : Call) :
    (openFailed e ((new_DocumentFile p a).call c) a).2 = -1 ∧
      (openFailed e ((new_DocumentFile p a).call c) a).1.sLibraryReferenceCount =
        p.sLibraryReferenceCount ∧
      (openFailed e ((new_DocumentFile p a).call c) a).1.heap = p.heap ∧
      p.since (openFailed e ((new_DocumentFile p a).call c) a).1 =
        (Call.operator_new a ::
            (if p.sLibraryReferenceCount = 0 then [Call.FPDF_InitLibrary] else [])) ++
          c :: (if p.sLibraryReferenceCount = 0 then [Call.FPDF_DestroyLibrary] else []) ++
          [Call.operator_delete a, Call.FPDF_GetLastError,
            Call.ThrowNew (openFailure e).1 (openFailure e).2] := by
  have hmsg := msgBuf_cannot_create_document e e.FPDF_GetLastError
  unfold openFailed jniThrowExceptionFmt openFailure
  dsimp only
  generalize ("cannot create document: " ++ getErrorDescription e e.FPDF_GetLastError) = m
    at hmsg ⊢
  by_cases h0 : p.sLibraryReferenceCount = 0 <;>
    by_cases hpw : e.FPDF_GetLastError = e.FPDF_ERR_PASSWORD <;>
    simp [new_DocumentFile, initLibraryIfNeed, delete_DocumentFile,
      DocumentFile.destructor, destroyLibraryIfNeed, Process.call, Process.since,
      jniThrowException, List.lookup, h0, hpw, hmsg]

theorem nativeOpenDocument_of_no_document (e : Engine) (h : Host) (p : Process) (fd : Int)
    (password : Option String) (hlen : 0 < h.toSizeT (getFileSize h fd))
    (hdoc : e.FPDF_LoadCustomDocument (h.toSizeT (getFileSize h fd)) fd password = 0) :
    nativeOpenDocument e h p fd password =
      openFailed e
        ((new_DocumentFile p h.operator_new).call
          (.FPDF_LoadCustomDocument (h.toSizeT (getFileSize h fd)) fd password))
        h.operator_new := by
  have hle : ¬ h.toSizeT (getFileSize h fd) ≤ 0 := not_le.mpr hlen
  simp [nativeOpenDocument, hle, hdoc]

theorem nativeOpenMemDocument_of_no_document (e : Engine) (h : Host) (p : Process)
    (data : List Int) (password : Option String)
    (hdoc : e.FPDF_LoadMemDocument data data.length password = 0) :
    nativeOpenMemDocument e h p data password =
      openFailed e
        ((new_DocumentFile p h.operator_new).call
          (.FPDF_LoadMemDocument data data.length password))
        h.operator_new := by
  simp [nativeOpenMemDocument, hdoc]

/-- The calls of a failed open end with the release of the handle, the read of
the last error and one exception; nothing is raised before. -/
theorem openFailed_calls_shape (e : Engine) (p : Process) (a : Int) (c : Call)
    (hc : raised [c] = []) :
    (∃ pre cls msg,
        p.since (openFailed e ((new_DocumentFile p a).call c) a).1 =
          pre ++ [Call.operator_delete a, Call.FPDF_GetLastError, Call.ThrowNew cls msg] ∧
        raised pre = []) ∧
      raised (p.since (openFailed e ((new_DocumentFile p a).call c) a).1) = [openFailure e] := by
  have hcalls := (openFailed_after_new e p a c).2.2.2
  have hrc : (match c with
      | Call.ThrowNew className message => some (className, message)
      | _ => none) = none := by
    simpa [raised] using hc
  refine ⟨⟨(Call.operator_new a ::
      (if p.sLibraryReferenceCount = 0 then [Call.FPDF_InitLibrary] else [])) ++
      c :: (if p.sLibraryReferenceCount = 0 then [Call.FPDF_DestroyLibrary] else []),
    (openFailure e).1, (openFailure e).2, hcalls, ?_⟩, ?_⟩
  · by_cases h0 : p.sLibraryReferenceCount = 0
    · simp only [h0, if_true, List.cons_append, List.nil_append]
      simp [raised, hrc]
    · simp only [h0, if_false, List.cons_append, List.nil_append, List.append_nil]
      simp [raised, hrc]
  · rw [hcalls]
    by_cases h0 : p.sLibraryReferenceCount = 0
    · simp only [h0, if_true, List.cons_append, List.nil_append]
      simp [raised, hrc]
    · simp only [h0, if_false, List.cons_append, List.nil_append, List.append_nil]
      simp [raised, hrc]

/-! ## Lemmas on the batch loads -/

theorem since_append (p : Process) (c : Int) (h : List (Int × DocumentFile)) (l : List Call) :
    p.since { sLibraryReferenceCount := c, heap := h, trace := p.trace ++ l } = l := by
  simp [Process.since]

/-- The loop runs the per-index load once for each index, in increasing order,
whatever the loads return. -/
theorem loadEach_eq (load : Process → Int → Process × Int) (eff : Int → List Call)
    (val : Int → Int)
    (hload : ∀ p i, load p i = ({ p with trace := p.trace ++ eff i }, val i)) :
    ∀ (n : Nat) (index : Int) (p : Process),
      loadEach load n index p =
        ({ p with trace :=
              p.trace ++ (List.range n).flatMap (fun (k : Nat) => eff (index + (k : Int))) },
          (List.range n).map (fun (k : Nat) => val (index + (k : Int)))) := by
  intro n
  induction n with
  | zero => intro index p; simp [loadEach]
  | succ n ih =>
    intro index p
    have hshift : ∀ k : Nat, index + 1 + (k : Int) = index + ((k + 1 : Nat) : Int) := by
      intro k; push_cast; ring
    simp only [loadEach, hload, ih, List.range_succ_eq_map, List.flatMap_cons,
      List.flatMap_map, List.map_cons, List.map_map, List.append_assoc, hshift]
    simp [Function.comp_def]

theorem loadPageInternal_frame (e : Engine) (p : Process) (doc : Option DocumentFile)
    (i : Int) :
    loadPageInternal e p doc i =
      ({ p with trace := p.trace ++ (loadPageInternal e Process.initial doc i).1.trace },
        (loadPageInternal e Process.initial doc i).2) := by
  cases doc with
  | none => simp [loadPageInternal, jniThrowException, Process.call, Process.initial]
  | some d =>
    by_cases hd : d.pdfDocument = 0
    · simp [loadPageInternal, jniThrowException, Process.call, Process.initial, hd]
    · by_cases hpage : e.FPDF_LoadPage d.pdfDocument i = 0 <;>
        simp [loadPageInternal, jniThrowException, Process.call, Process.initial, hd, hpage]

theorem loadTextPageInternal_frame (e : Engine) (p : Process) (doc : Option DocumentFile)
    (i : Int) :
    loadTextPageInternal e p doc i =
      ({ p with trace := p.trace ++ (loadTextPageInternal e Process.initial doc i).1.trace },
        (loadTextPageInternal e Process.initial doc i).2) := by
  cases doc with
  | none => simp [loadTextPageInternal, jniThrowException, Process.call, Process.initial]
  | some d =>
    by_cases hi : i = 0
    · simp [loadTextPageInternal, jniThrowException, Process.call, Process.initial, hi]
    · by_cases hpage : e.FPDFText_LoadPage i = 0 <;>
        simp [loadTextPageInternal, jniThrowException, Process.call, Process.initial, hi, hpage]

/-- What a batch load over a non-empty range does, for a per-index load that
only appends calls: as many elements as indices, element `i` the value of the
load at `fromIndex + i`, and the calls of the loads in increasing index order. -/
theorem batch_of_frame (load : Process → Int → Process × Int)
    (hframe : ∀ p i, load p i =
      ({ p with trace := p.trace ++ (load Process.initial i).1.trace },
        (load Process.initial i).2))
    (p : Process) (fromIndex toIndex : Int) (h : fromIndex ≤ toIndex) :
    ((loadEach load (toIndex - fromIndex + 1).toNat fromIndex p).2.length : Int) =
        toIndex - fromIndex + 1 ∧
      (∀ (i : Nat) (q : Process),
        i < (loadEach load (toIndex - fromIndex + 1).toNat fromIndex p).2.length →
        (loadEach load (toIndex - fromIndex + 1).toNat fromIndex p).2[i]? =
          some (load q (fromIndex + i)).2) ∧
      (∀ q : Process,
        p.since (loadEach load (toIndex - fromIndex + 1).toNat fromIndex p).1 =
          (List.range (loadEach load (toIndex - fromIndex + 1).toNat fromIndex p).2.length).flatMap
            (fun (i : Nat) => q.since (load q (fromIndex + (i : Int))).1)) := by
  have heq := loadEach_eq load (fun i => (load Process.initial i).1.trace)
    (fun i => (load Process.initial i).2) hframe (toIndex - fromIndex + 1).toNat fromIndex p
  have hsince : ∀ (q : Process) (j : Int),
      q.since (load q j).1 = (load Process.initial j).1.trace := by
    intro q j
    rw [hframe q j]
    exact since_append q _ _ _
  have hval : ∀ (q : Process) (j : Int), (load q j).2 = (load Process.initial j).2 := by
    intro q j
    rw [hframe q j]
  rw [heq]
  refine ⟨?_, ?_, ?_⟩
  · simp only [List.length_map, List.length_range]
    exact Int.toNat_of_nonneg (by omega)
  · intro i q hi
    simp only [List.length_map, List.length_range] at hi
    simp [List.getElem?_map, List.getElem?_range hi, hval q]
  · intro q
    simp only [List.length_map, List.length_range, hsince q]
    exact since_append p _ _ _

theorem mem_range_flatMap_of_index (eff : Int → List Call) {c : Call} {n : Nat}
    {fromIndex j : Int} (hlo : fromIndex ≤ j) (hhi : j < fromIndex + n) (hc : c ∈ eff j) :
    c ∈ (List.range n).flatMap (fun (i : Nat) => eff (fromIndex + (i : Int))) := by
  rw [List.mem_flatMap]
  refine ⟨(j - fromIndex).toNat, ?_, ?_⟩
  · rw [List.mem_range]; omega
  · have : fromIndex + ((j - fromIndex).toNat : Int) = j := by
      rw [Int.toNat_of_nonneg (by omega)]; ring
    rw [this]; exact hc

theorem checkedInt_of_fits {v : Int} (hlo : 0 ≤ v) (hhi : v < 2 ^ 31) :
    checkedInt v = some v := by
  unfold checkedInt
  rw [if_pos ⟨by omega, hhi⟩]

theorem nativeLoadPages_of_fits (e : Engine) (p : Process) (doc : Option DocumentFile)
    (fromIndex toIndex : Int) (h : fromIndex ≤ toIndex)
    (hfit : toIndex - fromIndex + 1 < 2 ^ 31) :
    nativeLoadPages e p doc fromIndex toIndex =
      some ((loadEach (fun p index => loadPageInternal e p doc index)
          (toIndex - fromIndex + 1).toNat fromIndex p).1,
        some (loadEach (fun p index => loadPageInternal e p doc index)
          (toIndex - fromIndex + 1).toNat fromIndex p).2) := by
  have hnot : ¬ toIndex < fromIndex := not_lt.mpr h
  unfold nativeLoadPages
  rw [if_neg hnot, checkedInt_of_fits (by omega) hfit]

theorem mem_raised_of_mem {className message : String} {calls : List Call}
    (h : Call.ThrowNew className message ∈ calls) : (className, message) ∈ raised calls := by
  unfold raised
  rw [List.mem_filterMap]
  exact ⟨_, h, rfl⟩

/-- A batch load over a range that holds index `k`: the element for `k` is what
the load at `k` returns, and every call of the load at an index of the range is
among the calls of the batch. -/
theorem batch_of_frame_at (load : Process → Int → Process × Int)
    (hframe : ∀ p i, load p i =
      ({ p with trace := p.trace ++ (load Process.initial i).1.trace },
        (load Process.initial i).2))
    (p : Process) (fromIndex toIndex : Int) (h : fromIndex ≤ toIndex) :
    (∀ j : Int, fromIndex ≤ j → j ≤ toIndex →
        (loadEach load (toIndex - fromIndex + 1).toNat fromIndex p).2[(j - fromIndex).toNat]? =
          some (load p j).2) ∧
      (∀ j : Int, fromIndex ≤ j → j ≤ toIndex → ∀ c ∈ p.since (load p j).1,
        c ∈ p.since (loadEach load (toIndex - fromIndex + 1).toNat fromIndex p).1) := by
  obtain ⟨hlen, hval, hcalls⟩ := batch_of_frame load hframe p fromIndex toIndex h
  constructor
  · intro j hlo hhi
    have hidx : fromIndex + (((j - fromIndex).toNat : Nat) : Int) = j := by
      rw [Int.toNat_of_nonneg (by omega)]; ring
    have := hval (j - fromIndex).toNat p (by omega)
    rw [hidx] at this
    exact this
  · intro j hlo hhi c hc
    rw [hcalls p]
    exact mem_range_flatMap_of_index (fun j => p.since (load p j).1) hlo (by omega) hc

/-! ## Lemmas on page geometry -/

theorem truncate_intCast (n : Int) : truncate (n : ℚ) = n := by
  unfold truncate
  split_ifs <;> simp

theorem truncate_eq_of_nonneg (x : ℚ) (z : Int) (h0 : 0 ≤ x) (hlo : (z : ℚ) ≤ x)
    (hhi : x < (z : ℚ) + 1) : truncate x = z := by
  unfold truncate
  rw [if_pos h0, Int.floor_eq_iff]
  exact ⟨hlo, hhi⟩

theorem truncate_intCast_div_72 (a : Int) : truncate ((a : ℚ) / 72) = Int.tdiv a 72 := by
  have h72 : (72 : ℚ) = ((72 : ℕ) : ℚ) := by norm_num
  unfold truncate
  by_cases ha : 0 ≤ a
  · have hq : (0 : ℚ) ≤ (a : ℚ) / 72 := by
      have : (0 : ℚ) ≤ (a : ℚ) := by exact_mod_cast ha
      positivity
    rw [if_pos hq, h72, Rat.floor_intCast_div_natCast, Int.tdiv_eq_ediv ha (by norm_num)]
    norm_num
  · have hneg : a < 0 := not_le.mp ha
    have hq : ¬ (0 : ℚ) ≤ (a : ℚ) / 72 := by
      have : (a : ℚ) < 0 := by exact_mod_cast hneg
      have : (a : ℚ) / 72 < 0 := div_neg_of_neg_of_pos this (by norm_num)
      exact not_le.mpr this
    have hflip : (a : ℚ) / 72 = -(((-a : Int) : ℚ) / ((72 : ℕ) : ℚ)) := by
      push_cast; ring
    have htdiv : Int.tdiv a 72 = -(Int.tdiv (-a) 72) := by
      rw [Int.neg_tdiv, neg_neg]
    rw [if_neg hq, hflip, Int.ceil_neg, Rat.floor_intCast_div_natCast, htdiv,
      Int.tdiv_eq_ediv (by omega) (by norm_num)]
    norm_num

theorem toJint_of_fits {x : ℚ} (hlo : -2 ^ 31 ≤ truncate x) (hhi : truncate x < 2 ^ 31) :
    toJint x = some (truncate x) := by
  unfold toJint
  rw [if_pos ⟨hlo, hhi⟩]

theorem times_72_div_72 (w : ℚ) : w * ((72 : Int) : ℚ) / 72 = w := by
  push_cast
  exact mul_div_cancel_right₀ w (by norm_num)

theorem times_144_div_72 (n : Int) : (n : ℚ) * ((144 : Int) : ℚ) / 72 = ((2 * n : Int) : ℚ) := by
  push_cast
  ring

theorem a4_height_points : truncate (a4Engine.FPDF_GetPageHeight 1000) = 841 :=
  truncate_eq_of_nonneg (84189 / 100 : ℚ) 841 (by norm_num) (by norm_num) (by norm_num)

theorem a4_height_pixels_144 :
    truncate (a4Engine.FPDF_GetPageHeight 1000 * ((144 : Int) : ℚ) / 72) = 1683 :=
  truncate_eq_of_nonneg ((84189 / 100 : ℚ) * ((144 : Int) : ℚ) / 72) 1683
    (by norm_num) (by norm_num) (by norm_num)

/-! ## Lemmas on rounding to `double` -/

theorem roundHalfEven_intCast (k : Int) : roundHalfEven (k : ℚ) = k := by
  simp [roundHalfEven]

theorem roundHalfEven_mono {s t : ℚ} (h : s ≤ t) : roundHalfEven s ≤ roundHalfEven t := by
  have hfl : ⌊s⌋ ≤ ⌊t⌋ := Int.floor_le_floor h
  have hs1 : (⌊s⌋ : ℚ) ≤ s := Int.floor_le s
  have hs2 : s < (⌊s⌋ : ℚ) + 1 := Int.lt_floor_add_one s
  have ht1 : (⌊t⌋ : ℚ) ≤ t := Int.floor_le t
  have ht2 : t < (⌊t⌋ : ℚ) + 1 := Int.lt_floor_add_one t
  rcases lt_or_eq_of_le hfl with hlt | heq
  · have h1 : roundHalfEven s ≤ ⌊s⌋ + 1 := by
      unfold roundHalfEven
      split_ifs <;> omega
    have h2 : ⌊t⌋ ≤ roundHalfEven t := by
      unfold roundHalfEven
      split_ifs <;> omega
    omega
  · unfold roundHalfEven
    rw [← heq]
    rw [← heq] at ht1 ht2
    split_ifs <;> first | omega | (exfalso; linarith)

theorem roundHalfEven_eq_of_near {s : ℚ} {r : Int} (hlo : (r : ℚ) - 1 / 2 < s)
    (hhi : s < (r : ℚ) + 1 / 2) : roundHalfEven s = r := by
  have hs1 : (⌊s⌋ : ℚ) ≤ s := Int.floor_le s
  have hs2 : s < (⌊s⌋ : ℚ) + 1 := Int.lt_floor_add_one s
  have h1 : r - 1 ≤ ⌊s⌋ := by
    rw [Int.le_floor]
    push_cast
    linarith
  have h2 : ⌊s⌋ < r + 1 := by
    rw [Int.floor_lt]
    push_cast
    linarith
  rcases (by omega : ⌊s⌋ = r ∨ ⌊s⌋ = r - 1) with hr | hr
  · unfold roundHalfEven
    rw [hr]
    rw [if_pos (by linarith)]
  · have hcast : ((⌊s⌋ : Int) : ℚ) = (r : ℚ) - 1 := by
      rw [hr]
      push_cast
      rfl
    unfold roundHalfEven
    rw [if_neg (by rw [hcast]; linarith), if_pos (by rw [hcast]; linarith), hr]
    omega

theorem roundHalfEven_le {s : ℚ} {k : Int} (h : s ≤ k) : roundHalfEven s ≤ k := by
  have := roundHalfEven_mono h
  rwa [roundHalfEven_intCast] at this

theorem le_roundHalfEven {s : ℚ} {k : Int} (h : (k : ℚ) ≤ s) : k ≤ roundHalfEven s := by
  have := roundHalfEven_mono h
  rwa [roundHalfEven_intCast] at this

theorem zpow_log_split (e : Int) : (2 : ℚ) ^ e = 2 ^ (52 : Int) * 2 ^ (e - 52) := by
  rw [← zpow_add₀ (by norm_num : (2 : ℚ) ≠ 0)]
  congr 1
  ring

theorem zpow_succ_split (e : Int) : (2 : ℚ) ^ (e + 1) = 2 ^ (53 : Int) * 2 ^ (e - 52) := by
  rw [← zpow_add₀ (by norm_num : (2 : ℚ) ≠ 0)]
  congr 1
  ring

theorem roundPositive_bounds {x : ℚ} (hx : 0 < x) :
    (2 : ℚ) ^ Int.log 2 x ≤ roundPositive x ∧ roundPositive x ≤ 2 ^ (Int.log 2 x + 1) := by
  have hu : (0 : ℚ) < 2 ^ (Int.log 2 x - 52) := zpow_pos (by norm_num) _
  have h1 : (2 : ℚ) ^ Int.log 2 x ≤ x := by
    have := Int.zpow_log_le_self (by norm_num : 1 < 2) hx
    exact_mod_cast this
  have h2 : x < (2 : ℚ) ^ (Int.log 2 x + 1) := by
    have := Int.lt_zpow_succ_log_self (by norm_num : 1 < 2) x
    exact_mod_cast this
  have hs1 : (((2 ^ 52 : Int)) : ℚ) ≤ x / 2 ^ (Int.log 2 x - 52) := by
    rw [le_div_iff₀ hu]
    rw [zpow_log_split] at h1
    norm_num at h1 ⊢
    exact h1
  have hs2 : x / 2 ^ (Int.log 2 x - 52) ≤ (((2 ^ 53 : Int)) : ℚ) := by
    rw [div_le_iff₀ hu]
    rw [zpow_succ_split] at h2
    norm_num at h2 ⊢
    exact h2.le
  have hr1 := le_roundHalfEven hs1
  have hr2 := roundHalfEven_le hs2
  have hr1q : (((2 ^ 52 : Int)) : ℚ) ≤ (roundHalfEven (x / 2 ^ (Int.log 2 x - 52)) : ℚ) := by
    exact_mod_cast hr1
  have hr2q : (roundHalfEven (x / 2 ^ (Int.log 2 x - 52)) : ℚ) ≤ (((2 ^ 53 : Int)) : ℚ) := by
    exact_mod_cast hr2
  unfold roundPositive
  constructor
  · rw [zpow_log_split]
    have := mul_le_mul_of_nonneg_right hr1q hu.le
    norm_num at this ⊢
    exact this
  · rw [zpow_succ_split]
    have := mul_le_mul_of_nonneg_right hr2q hu.le
    norm_num at this ⊢
    exact this

theorem roundPositive_pos {x : ℚ} (hx : 0 < x) : 0 < roundPositive x :=
  lt_of_lt_of_le (zpow_pos (by norm_num) _) (roundPositive_bounds hx).1

theorem roundPositive_mono {x y : ℚ} (hx : 0 < x) (h : x ≤ y) :
    roundPositive x ≤ roundPositive y := by
  have hy : 0 < y := lt_of_lt_of_le hx h
  have hlog : Int.log 2 x ≤ Int.log 2 y := Int.log_mono_right hx h
  rcases lt_or_eq_of_le hlog with hlt | heq
  · calc roundPositive x ≤ 2 ^ (Int.log 2 x + 1) := (roundPositive_bounds hx).2
      _ ≤ 2 ^ Int.log 2 y := zpow_le_zpow_right₀ (by norm_num) (by omega)
      _ ≤ roundPositive y := (roundPositive_bounds hy).1
  · unfold roundPositive
    rw [← heq]
    have hu : (0 : ℚ) < 2 ^ (Int.log 2 x - 52) := zpow_pos (by norm_num) _
    have hs : x / 2 ^ (Int.log 2 x - 52) ≤ y / 2 ^ (Int.log 2 x - 52) :=
      div_le_div_of_nonneg_right h hu.le
    have hr : (roundHalfEven (x / 2 ^ (Int.log 2 x - 52)) : ℚ) ≤
        (roundHalfEven (y / 2 ^ (Int.log 2 x - 52)) : ℚ) := by
      exact_mod_cast roundHalfEven_mono hs
    exact mul_le_mul_of_nonneg_right hr hu.le

theorem roundDouble_mono {x y : ℚ} (h : x ≤ y) : roundDouble x ≤ roundDouble y := by
  unfold roundDouble
  by_cases hx : 0 < x
  · have hy : 0 < y := lt_of_lt_of_le hx h
    rw [if_pos hx, if_pos hy]
    exact roundPositive_mono hx h
  · rw [if_neg hx]
    by_cases hx' : x < 0
    · rw [if_pos hx']
      have hnx : 0 < -x := by linarith
      have hpx := roundPositive_pos hnx
      by_cases hy : 0 < y
      · rw [if_pos hy]
        have := roundPositive_pos hy
        linarith
      · rw [if_neg hy]
        by_cases hy' : y < 0
        · rw [if_pos hy']
          have hny : 0 < -y := by linarith
          have := roundPositive_mono hny (by linarith : -y ≤ -x)
          linarith
        · rw [if_neg hy']
          linarith
    · rw [if_neg hx']
      have hx0 : x = 0 := le_antisymm (not_lt.mp hx) (not_lt.mp hx')
      by_cases hy : 0 < y
      · rw [if_pos hy]
        exact (roundPositive_pos hy).le
      · rw [if_neg hy]
        have hy' : ¬ y < 0 := by
          intro hlt
          linarith
        rw [if_neg hy']

theorem roundPositive_eq_of {x : ℚ} (hx : 0 < x) (e r : Int) (h1 : (2 : ℚ) ^ e ≤ x)
    (h2 : x < (2 : ℚ) ^ (e + 1)) (hr : roundHalfEven (x / 2 ^ (e - 52)) = r) :
    roundPositive x = (r : ℚ) * 2 ^ (e - 52) := by
  have hlog : Int.log 2 x = e := by
    have ha : e ≤ Int.log 2 x := by
      rw [← Int.zpow_le_iff_le_log (by norm_num) hx]
      exact_mod_cast h1
    have hb : Int.log 2 x < e + 1 := by
      rw [← Int.lt_zpow_iff_log_lt (by norm_num) hx]
      exact_mod_cast h2
    omega
  unfold roundPositive
  rw [hlog, hr]


theorem roundPositive_grid (k : Int) (hk0 : 0 < k) (hk : k < 2 ^ 53) :
    roundPositive ((k : ℚ) / 128) = (k : ℚ) / 128 := by
  have hx : (0 : ℚ) < (k : ℚ) / 128 := by
    have : (0 : ℚ) < (k : ℚ) := by exact_mod_cast hk0
    positivity
  have h1 : (2 : ℚ) ^ Int.log 2 ((k : ℚ) / 128) ≤ (k : ℚ) / 128 := by
    have := Int.zpow_log_le_self (by norm_num : 1 < 2) hx
    exact_mod_cast this
  have hlt : (k : ℚ) / 128 < 2 ^ (46 : Int) := by
    have : (k : ℚ) < 2 ^ 53 := by exact_mod_cast hk
    rw [div_lt_iff₀ (by norm_num)]
    norm_num at this ⊢
    exact this
  have he : Int.log 2 ((k : ℚ) / 128) < 46 := by
    by_contra hcon
    have h46 : (2 : ℚ) ^ (46 : Int) ≤ 2 ^ Int.log 2 ((k : ℚ) / 128) :=
      zpow_le_zpow_right₀ (by norm_num) (not_lt.mp hcon)
    linarith
  obtain ⟨j, hj⟩ : ∃ j : Nat, Int.log 2 ((k : ℚ) / 128) - 52 = -((j : Int) + 7) :=
    ⟨(45 - Int.log 2 ((k : ℚ) / 128)).toNat, by omega⟩
  have hu : (2 : ℚ) ^ (Int.log 2 ((k : ℚ) / 128) - 52) = 1 / (2 ^ j * 128) := by
    rw [hj, zpow_neg, show ((j : Int) + 7) = ((j + 7 : Nat) : Int) by push_cast; rfl,
      zpow_natCast, pow_add]
    norm_num
  have hpow : (0 : ℚ) < 2 ^ j := pow_pos (by norm_num) j
  unfold roundPositive
  rw [hu]
  have hs : (k : ℚ) / 128 / (1 / (2 ^ j * 128)) = ((k * 2 ^ j : Int) : ℚ) := by
    push_cast
    field_simp
    ring
  rw [hs, roundHalfEven_intCast]
  push_cast
  field_simp
  ring

theorem roundDouble_grid (k : Int) (hlo : -2 ^ 53 < k) (hhi : k < 2 ^ 53) :
    roundDouble ((k : ℚ) / 128) = (k : ℚ) / 128 := by
  unfold roundDouble
  rcases lt_trichotomy k 0 with hneg | hzero | hpos
  · have hx : ¬ (0 : ℚ) < (k : ℚ) / 128 := by
      have : (k : ℚ) < 0 := by exact_mod_cast hneg
      have : (k : ℚ) / 128 < 0 := div_neg_of_neg_of_pos this (by norm_num)
      exact not_lt.mpr this.le
    have hx' : (k : ℚ) / 128 < 0 := by
      have : (k : ℚ) < 0 := by exact_mod_cast hneg
      exact div_neg_of_neg_of_pos this (by norm_num)
    rw [if_neg hx, if_pos hx']
    have hflip : -((k : ℚ) / 128) = ((-k : Int) : ℚ) / 128 := by
      push_cast
      ring
    rw [hflip, roundPositive_grid (-k) (by omega) (by omega)]
    push_cast
    ring
  · subst hzero
    simp
  · have hx : (0 : ℚ) < (k : ℚ) / 128 := by
      have : (0 : ℚ) < (k : ℚ) := by exact_mod_cast hpos
      positivity
    rw [if_pos hx]
    exact roundPositive_grid k hpos hhi

theorem roundDouble_roundsToDouble : RoundsToDouble roundDouble :=
  ⟨fun _ _ h => roundDouble_mono h, roundDouble_grid⟩

theorem id_roundsToDouble : RoundsToDouble (fun x => x) :=
  ⟨fun _ _ h => h, fun _ _ _ => rfl⟩

theorem rounds_intCast {fl : ℚ → ℚ} (hfl : RoundsToDouble fl) (z : Int)
    (hlo : -2 ^ 46 < z) (hhi : z < 2 ^ 46) : fl (z : ℚ) = (z : ℚ) := by
  have h := hfl.2 (128 * z) (by omega) (by omega)
  have hz : ((128 * z : Int) : ℚ) / 128 = (z : ℚ) := by
    push_cast
    field_simp
  rwa [hz] at h

theorem truncate_eq_of_nonpos (x : ℚ) (z : Int) (h0 : x ≤ 0) (hlo : (z : ℚ) - 1 < x)
    (hhi : x ≤ (z : ℚ)) : truncate x = z := by
  unfold truncate
  by_cases hx : 0 ≤ x
  · have hx0 : x = 0 := le_antisymm h0 hx
    subst hx0
    have hz0 : (0 : ℚ) ≤ (z : ℚ) := hhi
    have hz1 : (z : ℚ) < 1 := by linarith
    have hz0' : 0 ≤ z := by exact_mod_cast hz0
    have hz1' : z < 1 := by exact_mod_cast hz1
    simp
    omega
  · rw [if_neg hx, Int.ceil_eq_iff]
    exact ⟨hlo, hhi⟩

theorem truncate_rounded_quotient {fl : ℚ → ℚ} (hfl : RoundsToDouble fl) (m : Int)
    (hlo : -2 ^ 31 ≤ Int.tdiv m 72) (hhi : Int.tdiv m 72 < 2 ^ 31) :
    truncate (fl (fl (m : ℚ) / 72)) = Int.tdiv m 72 := by
  by_cases hm : 0 ≤ m
  · rw [Int.tdiv_eq_ediv hm (by norm_num)] at hlo hhi ⊢
    have hq0 : 0 ≤ m / 72 := by omega
    rw [rounds_intCast hfl m (by omega) (by omega)]
    have hmq : ((m : ℚ)) = ((72 * (m / 72) + m % 72 : Int) : ℚ) := by
      rw [Int.ediv_add_emod]
    have hr0 : (0 : ℚ) ≤ ((m % 72 : Int) : ℚ) := by
      have : 0 ≤ m % 72 := by omega
      exact_mod_cast this
    have hr1 : ((m % 72 : Int) : ℚ) ≤ 71 := by
      have : m % 72 ≤ 71 := by omega
      exact_mod_cast this
    have hx1 : ((m / 72 : Int) : ℚ) ≤ (m : ℚ) / 72 := by
      rw [le_div_iff₀ (by norm_num), hmq]
      push_cast
      linarith
    have hx2 : (m : ℚ) / 72 ≤ ((128 * (m / 72) + 127 : Int) : ℚ) / 128 := by
      rw [div_le_div_iff₀ (by norm_num) (by norm_num), hmq]
      push_cast
      linarith
    have hf1 := hfl.1 _ _ hx1
    have hf2 := hfl.1 _ _ hx2
    rw [rounds_intCast hfl (m / 72) (by omega) (by omega)] at hf1
    rw [hfl.2 (128 * (m / 72) + 127) (by omega) (by omega)] at hf2
    apply truncate_eq_of_nonneg
    · have : (0 : ℚ) ≤ ((m / 72 : Int) : ℚ) := by exact_mod_cast hq0
      linarith
    · exact hf1
    · push_cast at hf2
      linarith
  · have hneg : m < 0 := not_le.mp hm
    have htdiv : Int.tdiv m 72 = -((-m) / 72) := by
      rw [← Int.tdiv_eq_ediv (by omega) (by norm_num), Int.neg_tdiv, neg_neg]
    rw [htdiv] at hlo hhi ⊢
    have hq0 : 0 ≤ (-m) / 72 := by omega
    rw [rounds_intCast hfl m (by omega) (by omega)]
    have hmq : ((m : ℚ)) = -((72 * ((-m) / 72) + (-m) % 72 : Int) : ℚ) := by
      rw [Int.ediv_add_emod]
      push_cast
      ring
    have hr0 : (0 : ℚ) ≤ (((-m) % 72 : Int) : ℚ) := by
      have : 0 ≤ (-m) % 72 := by omega
      exact_mod_cast this
    have hr1 : (((-m) % 72 : Int) : ℚ) ≤ 71 := by
      have : (-m) % 72 ≤ 71 := by omega
      exact_mod_cast this
    have hx1 : (m : ℚ) / 72 ≤ ((-((-m) / 72) : Int) : ℚ) := by
      rw [div_le_iff₀ (by norm_num), hmq]
      push_cast
      linarith
    have hx2 : ((128 * (-((-m) / 72)) - 127 : Int) : ℚ) / 128 ≤ (m : ℚ) / 72 := by
      rw [div_le_div_iff₀ (by norm_num) (by norm_num), hmq]
      push_cast
      linarith
    have hf1 := hfl.1 _ _ hx1
    have hf2 := hfl.1 _ _ hx2
    rw [rounds_intCast hfl (-((-m) / 72)) (by omega) (by omega)] at hf1
    rw [hfl.2 (128 * (-((-m) / 72)) - 127) (by omega) (by omega)] at hf2
    apply truncate_eq_of_nonpos
    · have : (0 : ℚ) ≤ (((-m) / 72 : Int) : ℚ) := by exact_mod_cast hq0
      push_cast at hf1
      linarith
    · push_cast at hf2 ⊢
      linarith
    · exact hf1

theorem a4_height_pixels_144_rounded :
    truncate (roundDouble (roundDouble (a4Engine.FPDF_GetPageHeight 1000 * ((144 : Int) : ℚ))
      / 72)) = 1683 := by
  have hh : a4Engine.FPDF_GetPageHeight 1000 = 84189 / 100 := rfl
  have hprod : roundDouble (84189 / 100 * ((144 : Int) : ℚ)) =
      8331010598775030 / 68719476736 := by
    unfold roundDouble
    rw [if_pos (by norm_num)]
    rw [roundPositive_eq_of (by norm_num) 16 8331010598775030 (by norm_num) (by norm_num)
      (roundHalfEven_eq_of_near (by norm_num) (by norm_num))]
    norm_num
  have hquot : roundDouble (8331010598775030 / 68719476736 / 72) =
      7405342754466693 / 4398046511104 := by
    unfold roundDouble
    rw [if_pos (by norm_num)]
    rw [roundPositive_eq_of (by norm_num) 10 7405342754466693 (by norm_num) (by norm_num)
      (roundHalfEven_eq_of_near (by norm_num) (by norm_num))]
    norm_num
  rw [hh, hprod, hquot]
  exact truncate_eq_of_nonneg _ 1683 (by norm_num) (by norm_num) (by norm_num)

/-! ## Theorems -/

/-- C1.  Starting from reference count 0, after every well-formed sequence of
`DocumentFile` constructions, document assignments and destructions: the count
equals the number of live handles and is not negative, the engine is
initialised exactly when the count is positive, and the next operation calls
`FPDF_InitLibrary` once exactly when it takes the count from 0 to 1 and
`FPDF_DestroyLibrary` once exactly when it takes the count from 1 to 0 (and
never otherwise). -/
theorem refcount_counts_live_handles (ops : List LifecycleOp)
    (h : validLifecycle Process.initial ops = true) :
    (runLifecycle Process.initial ops).sLibraryReferenceCount =
        (runLifecycle Process.initial ops).heap.length ∧
      0 ≤ (runLifecycle Process.initial ops).sLibraryReferenceCount ∧
      (engineInitialised (runLifecycle Process.initial ops).trace = true ↔
        0 < (runLifecycle Process.initial ops).sLibraryReferenceCount) ∧
      ∀ op : LifecycleOp, op.valid (runLifecycle Process.initial ops) = true →
        ((runLifecycle Process.initial ops).since
            (op.step (runLifecycle Process.initial ops))).count Call.FPDF_InitLibrary =
          (if (runLifecycle Process.initial ops).sLibraryReferenceCount = 0 ∧
              (op.step (runLifecycle Process.initial ops)).sLibraryReferenceCount = 1
            then 1 else 0) ∧
        ((runLifecycle Process.initial ops).since
            (op.step (runLifecycle Process.initial ops))).count Call.FPDF_DestroyLibrary =
          (if (runLifecycle Process.initial ops).sLibraryReferenceCount = 1 ∧
              (op.step (runLifecycle Process.initial ops)).sLibraryReferenceCount = 0
            then 1 else 0) := by
  have hinv := lifecycleInv_run ops Process.initial lifecycleInv_initial h
  refine ⟨hinv.1, ?_, hinv.2, fun op hv => lifecycle_step_calls _ op hinv hv⟩
  have := hinv.1
  omega

theorem refcount_counts_live_handles_witness :
    validLifecycle Process.initial lifecycleExample = true ∧
      (runLifecycle Process.initial lifecycleExample).sLibraryReferenceCount =
        (runLifecycle Process.initial lifecycleExample).heap.length ∧
      (runLifecycle Process.initial lifecycleExample).trace =
        [.operator_new 8, .FPDF_InitLibrary, .operator_new 16, .FPDF_CloseDocument 5,
          .operator_delete 8, .FPDF_DestroyLibrary, .operator_delete 16,
          .operator_new 8, .FPDF_InitLibrary] :=
  ⟨by decide, (refcount_counts_live_handles lifecycleExample (by decide)).1, by decide⟩

/-- C2.  For both open operations and every input: when the engine load
returns no document, the operation returns -1, the reference count and the set
of live handles are what they were before the call, and the calls of the
operation end with the release of the handle, the read of the last error and
the raised exception, with no exception raised before the release. -/
theorem failed_open_destroys_handle (e : Engine) (h : Host) (p : Process)
    (password : Option String) :
    (∀ fd : Int, 0 < h.toSizeT (getFileSize h fd) →
        e.FPDF_LoadCustomDocument (h.toSizeT (getFileSize h fd)) fd password = 0 →
        (nativeOpenDocument e h p fd password).2 = -1 ∧
          (nativeOpenDocument e h p fd password).1.sLibraryReferenceCount =
            p.sLibraryReferenceCount ∧
          (nativeOpenDocument e h p fd password).1.heap = p.heap ∧
          ∃ pre cls msg,
            p.since (nativeOpenDocument e h p fd password).1 =
              pre ++ [Call.operator_delete h.operator_new, Call.FPDF_GetLastError,
                Call.ThrowNew cls msg] ∧
            raised pre = []) ∧
      (∀ data : List Int, e.FPDF_LoadMemDocument data data.length password = 0 →
        (nativeOpenMemDocument e h p data password).2 = -1 ∧
          (nativeOpenMemDocument e h p data password).1.sLibraryReferenceCount =
            p.sLibraryReferenceCount ∧
          (nativeOpenMemDocument e h p data password).1.heap = p.heap ∧
          ∃ pre cls msg,
            p.since (nativeOpenMemDocument e h p data password).1 =
              pre ++ [Call.operator_delete h.operator_new, Call.FPDF_GetLastError,
                Call.ThrowNew cls msg] ∧
            raised pre = []) := by
  constructor
  · intro fd hlen hdoc
    rw [nativeOpenDocument_of_no_document e h p fd password hlen hdoc]
    have hnew := openFailed_after_new e p h.operator_new
      (.FPDF_LoadCustomDocument (h.toSizeT (getFileSize h fd)) fd password)
    exact ⟨hnew.1, hnew.2.1, hnew.2.2.1, (openFailed_calls_shape e p h.operator_new
      (.FPDF_LoadCustomDocument (h.toSizeT (getFileSize h fd)) fd password) rfl).1⟩
  · intro data hdoc
    rw [nativeOpenMemDocument_of_no_document e h p data password hdoc]
    have hnew := openFailed_after_new e p h.operator_new
      (.FPDF_LoadMemDocument data data.length password)
    exact ⟨hnew.1, hnew.2.1, hnew.2.2.1, (openFailed_calls_shape e p h.operator_new
      (.FPDF_LoadMemDocument data data.length password) rfl).1⟩

theorem failed_open_destroys_handle_witness :
    (0 < exampleHost.toSizeT (getFileSize exampleHost 3) ∧
        (nativeOpenDocument refusingEngine exampleHost Process.initial 3 none).2 = -1 ∧
        (nativeOpenDocument refusingEngine exampleHost Process.initial 3
            none).1.sLibraryReferenceCount = 0) ∧
      (nativeOpenMemDocument refusingEngine exampleHost Process.initial [37, 80]
          (some "pw")).1.heap = [] :=
  ⟨⟨by decide,
      ((failed_open_destroys_handle refusingEngine exampleHost Process.initial none).1 3
        (by decide) rfl).1,
      ((failed_open_destroys_handle refusingEngine exampleHost Process.initial none).1 3
        (by decide) rfl).2.1⟩,
    ((failed_open_destroys_handle refusingEngine exampleHost Process.initial (some "pw")).2
      [37, 80] rfl).2.2.1⟩

/-- The descriptor path of the empty-source check: when the reported size is 0 (or `fstat`
fails), `nativeOpenDocument` raises `IOException("File is empty")`, returns -1
and makes no other call; no handle is constructed. -/
theorem nativeOpenDocument_empty_file (e : Engine) (h : Host) (p : Process) (fd : Int)
    (password : Option String) (hsize : getFileSize h fd = 0) :
    nativeOpenDocument e h p fd password =
      (p.call (.ThrowNew "java/io/IOException" "File is empty"), -1) := by
  simp [nativeOpenDocument, hsize, Host.toSizeT, jniThrowException]

/-- C3 (the memory path, where the claim fails).  For a byte array of length 0
`nativeOpenMemDocument` constructs a handle and calls `FPDF_LoadMemDocument`
with size 0; the exception `IOException("File is empty")` is never raised. -/
theorem nativeOpenMemDocument_empty_buffer (e : Engine) (h : Host) (p : Process)
    (password : Option String) :
    Call.FPDF_LoadMemDocument [] 0 password ∈
        p.since (nativeOpenMemDocument e h p [] password).1 ∧
      ("java/io/IOException", "File is empty") ∉
        raised (p.since (nativeOpenMemDocument e h p [] password).1) := by
  by_cases hdoc : e.FPDF_LoadMemDocument [] 0 password = 0
  · have hdoc2 : e.FPDF_LoadMemDocument [] (([] : List Int).length : Int) password = 0 := hdoc
    rw [nativeOpenMemDocument_of_no_document e h p [] password hdoc2]
    constructor
    · rw [(openFailed_after_new e p h.operator_new _).2.2.2]
      simp
    · rw [(openFailed_calls_shape e p h.operator_new
        (.FPDF_LoadMemDocument [] (([] : List Int).length : Int) password) rfl).2]
      unfold openFailure getErrorDescription
      split_ifs <;> decide
  · by_cases h0 : p.sLibraryReferenceCount = 0 <;>
      simp [nativeOpenMemDocument, hdoc, new_DocumentFile, initLibraryIfNeed,
        Process.setDocument, Process.call, Process.since, raised, h0]

/-- C4.  For every failed open, by descriptor or by memory buffer, and every
last-error code of the engine, exactly one exception is raised:
`PdfPasswordException` when the code is `FPDF_ERR_PASSWORD`, and otherwise an
`IOException` whose message is "cannot create document: " followed by
`getErrorDescription` of the code.  So the password exception is raised if and
only if the code is `FPDF_ERR_PASSWORD`. -/
theorem open_failure_exception (e : Engine) (h : Host) (p : Process)
    (password : Option String) :
    (∀ fd : Int, 0 < h.toSizeT (getFileSize h fd) →
        e.FPDF_LoadCustomDocument (h.toSizeT (getFileSize h fd)) fd password = 0 →
        raised (p.since (nativeOpenDocument e h p fd password).1) =
            [if e.FPDF_GetLastError = e.FPDF_ERR_PASSWORD then
                ("com/shockwave/pdfium/PdfPasswordException",
                  "Password required or incorrect password.")
              else
                ("java/io/IOException",
                  "cannot create document: " ++ getErrorDescription e e.FPDF_GetLastError)] ∧
          ((∃ msg, ("com/shockwave/pdfium/PdfPasswordException", msg) ∈
              raised (p.since (nativeOpenDocument e h p fd password).1)) ↔
            e.FPDF_GetLastError = e.FPDF_ERR_PASSWORD)) ∧
      (∀ data : List Int, e.FPDF_LoadMemDocument data data.length password = 0 →
        raised (p.since (nativeOpenMemDocument e h p data password).1) =
            [if e.FPDF_GetLastError = e.FPDF_ERR_PASSWORD then
                ("com/shockwave/pdfium/PdfPasswordException",
                  "Password required or incorrect password.")
              else
                ("java/io/IOException",
                  "cannot create document: " ++ getErrorDescription e e.FPDF_GetLastError)] ∧
          ((∃ msg, ("com/shockwave/pdfium/PdfPasswordException", msg) ∈
              raised (p.since (nativeOpenMemDocument e h p data password).1)) ↔
            e.FPDF_GetLastError = e.FPDF_ERR_PASSWORD)) := by
  have hiff : ∀ calls : List Call, raised calls = [openFailure e] →
      ((∃ msg, ("com/shockwave/pdfium/PdfPasswordException", msg) ∈ raised calls) ↔
        e.FPDF_GetLastError = e.FPDF_ERR_PASSWORD) := by
    intro calls hcalls
    rw [hcalls]
    unfold openFailure
    by_cases hpw : e.FPDF_GetLastError = e.FPDF_ERR_PASSWORD
    · simp [hpw]
    · simp [hpw]
  constructor
  · intro fd hlen hdoc
    rw [nativeOpenDocument_of_no_document e h p fd password hlen hdoc]
    have hshape := (openFailed_calls_shape e p h.operator_new
      (.FPDF_LoadCustomDocument (h.toSizeT (getFileSize h fd)) fd password) rfl).2
    exact ⟨hshape, hiff _ hshape⟩
  · intro data hdoc
    rw [nativeOpenMemDocument_of_no_document e h p data password hdoc]
    have hshape := (openFailed_calls_shape e p h.operator_new
      (.FPDF_LoadMemDocument data data.length password) rfl).2
    exact ⟨hshape, hiff _ hshape⟩

theorem open_failure_exception_witness :
    (0 < exampleHost.toSizeT (getFileSize exampleHost 3) ∧
        raised (Process.initial.since
            (nativeOpenDocument refusingEngine exampleHost Process.initial 3 none).1) =
          [("java/io/IOException",
            "cannot create document: File not in PDF format or corrupted.")]) ∧
      raised (Process.initial.since
          (nativeOpenMemDocument { refusingEngine with FPDF_GetLastError := 4 } exampleHost
            Process.initial [37, 80] none).1) =
        [("com/shockwave/pdfium/PdfPasswordException",
          "Password required or incorrect password.")] :=
  ⟨⟨by decide,
      ((open_failure_exception refusingEngine exampleHost Process.initial none).1 3
        (by decide) rfl).1⟩,
    ((open_failure_exception { refusingEngine with FPDF_GetLastError := 4 } exampleHost
      Process.initial none).2 [37, 80] rfl).1⟩

/-- C5.  For every document handle and every pair of indices with
`toIndex < fromIndex`, `nativeLoadPages` returns the null array reference, a
result that holds no handle, and makes no call at all: the state is unchanged,
so no per-index load has run. -/
theorem nativeLoadPages_reversed_range (e : Engine) (p : Process) (doc : Option DocumentFile)
    (fromIndex toIndex : Int) (h : toIndex < fromIndex) :
    nativeLoadPages e p doc fromIndex toIndex = some (p, none) ∧
      ∀ r, nativeLoadPages e p doc fromIndex toIndex = some r → p.since r.1 = [] := by
  have hres : nativeLoadPages e p doc fromIndex toIndex = some (p, none) := by
    simp [nativeLoadPages, h]
  refine ⟨hres, ?_⟩
  intro r hr
  rw [hres] at hr
  cases hr
  simp [Process.since]

theorem nativeLoadPages_reversed_range_witness :
    (2 : Int) < 5 ∧
      nativeLoadPages threePageEngine Process.initial (some ⟨7, 0⟩) 5 2 =
        some (Process.initial, none) :=
  ⟨by decide,
    (nativeLoadPages_reversed_range threePageEngine Process.initial (some ⟨7, 0⟩) 5 2
      (by decide)).1⟩

/-- C6, the claim refuted.  The indices 0 and 2147483647 satisfy
`0 ≤ fromIndex ≤ toIndex`, but the range holds `2^31` indices: the `int`
expression `toIndex - fromIndex + 1` overflows, the behaviour is undefined and
no array of `2^31` handles is returned. -/
theorem nativeLoadPages_full_range_overflows :
    ((0 : Int) ≤ 0 ∧ (0 : Int) ≤ 2147483647) ∧
      checkedInt (2147483647 - 0 + 1) = none ∧
      nativeLoadPages threePageEngine Process.initial (some ⟨7, 0⟩) 0 2147483647 = none := by
  refine ⟨by decide, by decide, by decide⟩

/-- C6 as amended.  For every document handle and indices `fromIndex ≤ toIndex`
(so in particular for `0 ≤ fromIndex ≤ toIndex`) whose range length
`toIndex - fromIndex + 1` fits a `jint`, `nativeLoadPages` returns an array of
exactly `toIndex - fromIndex + 1` elements, element `i` being what
`loadPageInternal` returns for page `fromIndex + i`; its calls are those of
`loadPageInternal` for `fromIndex, fromIndex + 1, ..., toIndex` in this order,
once each; for a document that is open, `FPDF_LoadPage` is called with exactly
these indices in increasing order. -/
theorem nativeLoadPages_inclusive_range (e : Engine) (p : Process)
    (doc : Option DocumentFile) (fromIndex toIndex : Int) (h : fromIndex ≤ toIndex)
    (hfit : toIndex - fromIndex + 1 < 2 ^ 31) :
    ∃ (after : Process) (pages : List Int),
      nativeLoadPages e p doc fromIndex toIndex = some (after, some pages) ∧
      (pages.length : Int) = toIndex - fromIndex + 1 ∧
      (∀ (i : Nat) (q : Process), i < pages.length →
        pages[i]? = some (loadPageInternal e q doc (fromIndex + i)).2) ∧
      (∀ q : Process,
        p.since after =
          (List.range pages.length).flatMap
            (fun (i : Nat) => q.since (loadPageInternal e q doc (fromIndex + (i : Int))).1)) ∧
      (∀ d : DocumentFile, doc = some d → d.pdfDocument ≠ 0 →
        loadedPageIndices (p.since after) =
          (List.range pages.length).map (fun (i : Nat) => fromIndex + (i : Int))) := by
  have hb := batch_of_frame (fun p index => loadPageInternal e p doc index)
    (fun p i => loadPageInternal_frame e p doc i) p fromIndex toIndex h
  refine ⟨_, _, nativeLoadPages_of_fits e p doc fromIndex toIndex h hfit, hb.1, hb.2.1,
    hb.2.2, ?_⟩
  intro d hdoc hd
  rw [hb.2.2 p, loadedPageIndices, List.filterMap_flatMap]
  have hone : ∀ i : Nat,
      List.filterMap
          (fun c =>
            match c with
            | Call.FPDF_LoadPage _ pageIndex => some pageIndex
            | _ => none)
          (p.since (loadPageInternal e p doc (fromIndex + (i : Int))).1) =
        [fromIndex + (i : Int)] := by
    intro i
    subst hdoc
    by_cases hpage : e.FPDF_LoadPage d.pdfDocument (fromIndex + (i : Int)) = 0 <;>
      simp [loadPageInternal, jniThrowException, Process.call, Process.since, hd, hpage]
  simp only [hone]
  induction (List.range (loadEach (fun p index => loadPageInternal e p doc index)
    (toIndex - fromIndex + 1).toNat fromIndex p).2.length) with
  | nil => rfl
  | cons a l ih => simp [List.flatMap_cons, ih]

theorem nativeLoadPages_inclusive_range_witness :
    ((0 : Int) ≤ 1 ∧ (1 : Int) - 0 + 1 < 2 ^ 31) ∧
      nativeLoadPages threePageEngine Process.initial (some ⟨7, 0⟩) 0 1 =
        some ({ trace := [.FPDF_LoadPage 7 0, .FPDF_LoadPage 7 1] }, some [1000, 1001]) ∧
      ∃ (after : Process) (pages : List Int),
        nativeLoadPages threePageEngine Process.initial (some ⟨7, 0⟩) 0 1 =
          some (after, some pages) ∧
        (pages.length : Int) = 1 - 0 + 1 :=
  ⟨by decide, by decide,
    (nativeLoadPages_inclusive_range threePageEngine Process.initial (some ⟨7, 0⟩) 0 1
      (by decide) (by decide)).imp (fun _ hp => hp.imp (fun _ hq => ⟨hq.1, hq.2.1⟩))⟩

/-- C7, the claim refuted.  With a document whose page 0 cannot be loaded, the
load at index 0 is the first to return a null handle, and `nativeLoadPages` on
the range (0, 1) still calls `FPDF_LoadPage` for index 1 after raising the
exception. -/
theorem nativeLoadPages_loads_after_failure :
    pageZeroMissingEngine.FPDF_LoadPage 7 0 = 0 ∧
      nativeLoadPages pageZeroMissingEngine Process.initial (some ⟨7, 0⟩) 0 1 =
        some ({ trace := [.FPDF_LoadPage 7 0,
              .ThrowNew "java/lang/IllegalStateException" "cannot load page",
              .FPDF_LoadPage 7 1] },
          some [-1, 1001]) ∧
      ¬ (∀ r, nativeLoadPages pageZeroMissingEngine Process.initial (some ⟨7, 0⟩) 0 1 = some r →
          ∀ j : Int, 0 < j → Call.FPDF_LoadPage 7 j ∉ r.1.trace) := by
  have hres : nativeLoadPages pageZeroMissingEngine Process.initial (some ⟨7, 0⟩) 0 1 =
      some ({ trace := [.FPDF_LoadPage 7 0,
            .ThrowNew "java/lang/IllegalStateException" "cannot load page",
            .FPDF_LoadPage 7 1] },
        some [-1, 1001]) := by decide
  refine ⟨by decide, hres, ?_⟩
  intro hall
  exact hall _ hres 1 (by decide) (by decide)

/-- C7 as amended.  The batch page load is not fail-fast.  For every open
document and every range whose length fits a `jint` and that holds an index
`k` at which `FPDF_LoadPage` returns a null handle, and at no earlier index of
the range, `nativeLoadPages` raises `IllegalStateException` with the fixed
message, stores -1 at position `k - fromIndex`, keeps the handles loaded before
`k`, and still calls `FPDF_LoadPage` for every index after `k`. -/
theorem batch_load_continues_after_failure (e : Engine) (p : Process) (d : DocumentFile)
    (fromIndex toIndex k : Int) (hlo : fromIndex ≤ k) (hhi : k ≤ toIndex)
    (hfit : toIndex - fromIndex + 1 < 2 ^ 31)
    (hd : d.pdfDocument ≠ 0) (hk : e.FPDF_LoadPage d.pdfDocument k = 0)
    (hfirst : ∀ j : Int, fromIndex ≤ j → j < k → e.FPDF_LoadPage d.pdfDocument j ≠ 0) :
    ∃ (after : Process) (pages : List Int),
      nativeLoadPages e p (some d) fromIndex toIndex = some (after, some pages) ∧
      (pages.length : Int) = toIndex - fromIndex + 1 ∧
      ("java/lang/IllegalStateException", "cannot load page") ∈ raised (p.since after) ∧
      pages[(k - fromIndex).toNat]? = some (-1) ∧
      (∀ j : Int, fromIndex ≤ j → j < k →
        pages[(j - fromIndex).toNat]? = some (e.FPDF_LoadPage d.pdfDocument j)) ∧
      (∀ j : Int, k < j → j ≤ toIndex →
        Call.FPDF_LoadPage d.pdfDocument j ∈ p.since after) := by
  have h : fromIndex ≤ toIndex := le_trans hlo hhi
  have hlen := (batch_of_frame (fun p index => loadPageInternal e p (some d) index)
    (fun p i => loadPageInternal_frame e p (some d) i) p fromIndex toIndex h).1
  obtain ⟨hval, hcalls⟩ := batch_of_frame_at
    (fun p index => loadPageInternal e p (some d) index)
    (fun p i => loadPageInternal_frame e p (some d) i) p fromIndex toIndex h
  refine ⟨_, _, nativeLoadPages_of_fits e p (some d) fromIndex toIndex h hfit, hlen,
    ?_, ?_, ?_, ?_⟩
  · apply mem_raised_of_mem
    exact hcalls k hlo hhi
      (Call.ThrowNew "java/lang/IllegalStateException" "cannot load page")
      (by simp [loadPageInternal, jniThrowException, Process.call, Process.since, hd, hk])
  · rw [hval k hlo hhi]
    simp [loadPageInternal, hd, hk]
  · intro j hj1 hj2
    rw [hval j hj1 (by omega)]
    simp [loadPageInternal, hd, hfirst j hj1 hj2]
  · intro j hj1 hj2
    exact hcalls j (by omega) hj2 (Call.FPDF_LoadPage d.pdfDocument j)
      (by
        by_cases hpage : e.FPDF_LoadPage d.pdfDocument j = 0 <;>
          simp [loadPageInternal, jniThrowException, Process.call, Process.since, hd, hpage])

theorem batch_load_continues_after_failure_witness :
    (((0 : Int) ≤ 0 ∧ (0 : Int) ≤ 1 ∧ (1 : Int) - 0 + 1 < 2 ^ 31) ∧
        ((7 : Int) ≠ 0 ∧ pageZeroMissingEngine.FPDF_LoadPage 7 0 = 0)) ∧
      ∃ (after : Process) (pages : List Int),
        nativeLoadPages pageZeroMissingEngine Process.initial (some ⟨7, 0⟩) 0 1 =
          some (after, some pages) ∧
        pages[((0 : Int) - 0).toNat]? = some (-1) ∧
        Call.FPDF_LoadPage 7 1 ∈ Process.initial.since after :=
  ⟨by decide,
    (batch_load_continues_after_failure pageZeroMissingEngine Process.initial ⟨7, 0⟩ 0 1 0
        (by decide) (by decide) (by decide) (by decide) (by decide)
        (fun j h0 hj => absurd (lt_of_le_of_lt h0 hj) (lt_irrefl 0))).imp
      (fun _ hp => hp.imp
        (fun _ hq => ⟨hq.1, hq.2.2.2.1, hq.2.2.2.2.2 1 (by decide) (by decide)⟩))⟩

/-- C8, the failing input.  For every engine and every open document,
`nativeLoadTextPages(doc, 0, 0)` hands the index 0 to `loadTextPageInternal` as
its page pointer: no page and no text page is loaded, `IllegalStateException`
("cannot load text page") is raised and the array holds the single value -1. -/
theorem nativeLoadTextPages_first_page (e : Engine) (p : Process) (d : DocumentFile) :
    nativeLoadTextPages e p (some d) 0 0 =
      some (p.call (.ThrowNew "java/lang/IllegalStateException" "cannot load text page"),
        some [-1]) := by
  simp [nativeLoadTextPages, checkedInt, loadEach, loadTextPageInternal, jniThrowException]

/-- The single load `nativeLoadTextPage` is given the page
handle itself and returns what the engine answers for it. -/
theorem nativeLoadTextPage_of_page (e : Engine) (p : Process) (d : DocumentFile)
    (pagePtr : Int) (hpage : pagePtr ≠ 0) (htext : e.FPDFText_LoadPage pagePtr ≠ 0) :
    nativeLoadTextPage e p (some d) pagePtr =
      (p.call (.FPDFText_LoadPage pagePtr), e.FPDFText_LoadPage pagePtr) := by
  simp [nativeLoadTextPage, loadTextPageInternal, hpage, htext]

/-- C9, the claim refuted.  A page `2^30` points wide has an integer point
size, which the point query returns, but at dpi 144 the pixel query does not
return `2 * 2^30`: that value is no `jint`. -/
theorem pixel_size_at_144_out_of_range :
    vastPageEngine.FPDF_GetPageWidth 1000 = ((1073741824 : Int) : ℚ) ∧
      nativeGetPageWidthPoint vastPageEngine 1000 = some 1073741824 ∧
      nativeGetPageWidthPixel vastPageEngine 1000 144 ≠ some (2 * 1073741824) := by
  have hw : vastPageEngine.FPDF_GetPageWidth 1000 = ((1073741824 : Int) : ℚ) := by
    norm_num [vastPageEngine]
  refine ⟨hw, ?_, ?_⟩
  · unfold nativeGetPageWidthPoint
    rw [hw, toJint_of_fits] <;> rw [truncate_intCast] <;> norm_num
  · unfold nativeGetPageWidthPixel toJint
    rw [hw, times_144_div_72, truncate_intCast]
    norm_num
    exact fun h => Option.noConfusion h

/-- C9 as amended.  With points taken as exact rationals, for every page: at
dpi 72 the pixel query and the point query agree, and both return the point
size truncated toward zero when that fits a `jint`; at dpi 144 the pixel size
is `2 * points` whenever the point size is an integer and `2 * points` fits a
`jint`. -/
theorem pixel_size_at_72_and_144 (e : Engine) (page : Int) :
    (nativeGetPageWidthPixel e page 72 = nativeGetPageWidthPoint e page ∧
        nativeGetPageHeightPixel e page 72 = nativeGetPageHeightPoint e page) ∧
      (-2 ^ 31 ≤ truncate (e.FPDF_GetPageWidth page) →
        truncate (e.FPDF_GetPageWidth page) < 2 ^ 31 →
        nativeGetPageWidthPixel e page 72 = some (truncate (e.FPDF_GetPageWidth page))) ∧
      (-2 ^ 31 ≤ truncate (e.FPDF_GetPageHeight page) →
        truncate (e.FPDF_GetPageHeight page) < 2 ^ 31 →
        nativeGetPageHeightPixel e page 72 = some (truncate (e.FPDF_GetPageHeight page))) ∧
      (∀ n : Int, e.FPDF_GetPageWidth page = (n : ℚ) → -2 ^ 31 ≤ 2 * n → 2 * n < 2 ^ 31 →
        nativeGetPageWidthPixel e page 144 = some (2 * n)) ∧
      (∀ n : Int, e.FPDF_GetPageHeight page = (n : ℚ) → -2 ^ 31 ≤ 2 * n → 2 * n < 2 ^ 31 →
        nativeGetPageHeightPixel e page 144 = some (2 * n)) := by
  refine ⟨⟨?_, ?_⟩, ?_, ?_, ?_, ?_⟩
  · unfold nativeGetPageWidthPixel nativeGetPageWidthPoint
    rw [times_72_div_72]
  · unfold nativeGetPageHeightPixel nativeGetPageHeightPoint
    rw [times_72_div_72]
  · intro hlo hhi
    unfold nativeGetPageWidthPixel
    rw [times_72_div_72, toJint_of_fits hlo hhi]
  · intro hlo hhi
    unfold nativeGetPageHeightPixel
    rw [times_72_div_72, toJint_of_fits hlo hhi]
  · intro n hn hlo hhi
    unfold nativeGetPageWidthPixel
    rw [hn, times_144_div_72, toJint_of_fits] <;> rw [truncate_intCast] <;> assumption
  · intro n hn hlo hhi
    unfold nativeGetPageHeightPixel
    rw [hn, times_144_div_72, toJint_of_fits] <;> rw [truncate_intCast] <;> assumption

theorem pixel_size_at_72_and_144_witness :
    letterEngine.FPDF_GetPageWidth 1000 = ((612 : Int) : ℚ) ∧
      (-2 ^ 31 ≤ 2 * (612 : Int) ∧ 2 * (612 : Int) < 2 ^ 31) ∧
      nativeGetPageWidthPixel letterEngine 1000 144 = some (2 * 612) :=
  ⟨by norm_num [letterEngine], by decide,
    (pixel_size_at_72_and_144 letterEngine 1000).2.2.2.1 612 (by norm_num [letterEngine])
      (by decide) (by decide)⟩

/-- C10, the claim refuted.  An A4 page is 841.89 points high: the point query
returns 841, and at dpi 144 the pixel query returns 1683, while
`(841 * 144) / 72` in integer division is 1682.  The pixel query returns 1683
also with the product and the quotient rounded to `double`. -/
theorem pixel_size_is_not_integer_division :
    nativeGetPageHeightPoint a4Engine 1000 = some 841 ∧
      nativeGetPageHeightPixel a4Engine 1000 144 = some 1683 ∧
      nativeGetPageHeightPixel a4Engine 1000 144 ≠ some (Int.tdiv (841 * 144) 72) ∧
      nativeGetPageHeightPixelRounded roundDouble a4Engine 1000 144 = some 1683 ∧
      nativeGetPageHeightPixelRounded roundDouble a4Engine 1000 144 ≠
        some (Int.tdiv (841 * 144) 72) := by
  have h2 : nativeGetPageHeightPixel a4Engine 1000 144 = some 1683 := by
    unfold nativeGetPageHeightPixel
    rw [toJint_of_fits] <;> rw [a4_height_pixels_144] <;> norm_num
  have h3 : nativeGetPageHeightPixelRounded roundDouble a4Engine 1000 144 = some 1683 := by
    unfold nativeGetPageHeightPixelRounded
    rw [toJint_of_fits] <;> rw [a4_height_pixels_144_rounded] <;> norm_num
  refine ⟨?_, h2, ?_, h3, ?_⟩
  · unfold nativeGetPageHeightPoint
    rw [toJint_of_fits] <;> rw [a4_height_points] <;> norm_num
  · rw [h2]
    decide
  · rw [h3]
    decide

/-- With a fractional point size the rounding of the `double` product shows:
for a width of `0x1.f466666666666p+8` points at dpi 100 the product rounds to
50040 and the pixel width is 695, where exact arithmetic gives 694. -/
theorem rounded_pixel_size_off_grid :
    nativeGetPageWidthPixelRounded roundDouble offGridEngine 1000 100 = some 695 ∧
      nativeGetPageWidthPixel offGridEngine 1000 100 = some 694 := by
  have hw : offGridEngine.FPDF_GetPageWidth 1000 = 4401564948312883 / 8796093022208 := rfl
  have hprod : roundDouble (4401564948312883 / 8796093022208 * ((100 : Int) : ℚ)) = 50040 := by
    unfold roundDouble
    rw [if_pos (by norm_num)]
    rw [roundPositive_eq_of (by norm_num) 15 6877445231738880 (by norm_num) (by norm_num)
      (roundHalfEven_eq_of_near (by norm_num) (by norm_num))]
    norm_num
  have hquot : roundDouble (50040 / 72) = 695 := by
    have h := roundDouble_grid (695 * 128) (by norm_num) (by norm_num)
    norm_num at h ⊢
    exact h
  constructor
  · unfold nativeGetPageWidthPixelRounded
    rw [hw, hprod, hquot]
    have ht : truncate (695 : ℚ) = 695 := truncate_intCast 695
    rw [toJint_of_fits] <;> rw [ht] <;> norm_num
  · unfold nativeGetPageWidthPixel
    rw [hw]
    have ht : truncate (4401564948312883 / 8796093022208 * ((100 : Int) : ℚ) / 72) = 694 :=
      truncate_eq_of_nonneg _ 694 (by norm_num) (by norm_num) (by norm_num)
    rw [toJint_of_fits] <;> rw [ht] <;> norm_num

/-- C10 as amended.  For every page whose point size is an integer `n` that
fits a `jint`, and every dpi for which `(n * dpi) / 72` fits a `jint`: the point
query returns `n` and the pixel query returns `(n * dpi) / 72` in integer
division truncated toward zero.  This holds with the `double` product and
quotient rounded by any monotone rounding that keeps the `double` values
`k / 128`, and in exact arithmetic. -/
theorem pixel_size_of_integer_points (fl : ℚ → ℚ) (hfl : RoundsToDouble fl) (e : Engine)
    (page dpi n : Int) (hn : -2 ^ 31 ≤ n ∧ n < 2 ^ 31)
    (hq : -2 ^ 31 ≤ Int.tdiv (n * dpi) 72 ∧ Int.tdiv (n * dpi) 72 < 2 ^ 31) :
    (e.FPDF_GetPageWidth page = (n : ℚ) →
        nativeGetPageWidthPoint e page = some n ∧
        nativeGetPageWidthPixelRounded fl e page dpi = some (Int.tdiv (n * dpi) 72) ∧
        nativeGetPageWidthPixel e page dpi = some (Int.tdiv (n * dpi) 72)) ∧
      (e.FPDF_GetPageHeight page = (n : ℚ) →
        nativeGetPageHeightPoint e page = some n ∧
        nativeGetPageHeightPixelRounded fl e page dpi = some (Int.tdiv (n * dpi) 72) ∧
        nativeGetPageHeightPixel e page dpi = some (Int.tdiv (n * dpi) 72)) := by
  have hpoint : toJint (n : ℚ) = some n := by
    rw [toJint_of_fits] <;> rw [truncate_intCast]
    · exact hn.1
    · exact hn.2
  have hcast : (n : ℚ) * (dpi : ℚ) = ((n * dpi : Int) : ℚ) := by push_cast; rfl
  have hrounded : toJint (fl (fl ((n : ℚ) * (dpi : ℚ)) / 72)) = some (Int.tdiv (n * dpi) 72) := by
    have ht := truncate_rounded_quotient hfl (n * dpi) hq.1 hq.2
    rw [hcast, toJint_of_fits] <;> rw [ht]
    · exact hq.1
    · exact hq.2
  have hexact : toJint ((n : ℚ) * (dpi : ℚ) / 72) = some (Int.tdiv (n * dpi) 72) := by
    have ht := truncate_intCast_div_72 (n * dpi)
    rw [hcast, toJint_of_fits] <;> rw [ht]
    · exact hq.1
    · exact hq.2
  constructor
  · intro hw
    unfold nativeGetPageWidthPoint nativeGetPageWidthPixelRounded nativeGetPageWidthPixel
    rw [hw]
    exact ⟨hpoint, hrounded, hexact⟩
  · intro hh
    unfold nativeGetPageHeightPoint nativeGetPageHeightPixelRounded nativeGetPageHeightPixel
    rw [hh]
    exact ⟨hpoint, hrounded, hexact⟩

theorem pixel_size_of_integer_points_witness :
    (RoundsToDouble roundDouble ∧ (-2 ^ 31 ≤ (612 : Int) ∧ (612 : Int) < 2 ^ 31) ∧
        (-2 ^ 31 ≤ Int.tdiv (612 * 300) 72 ∧ Int.tdiv (612 * 300) 72 < 2 ^ 31) ∧
        letterEngine.FPDF_GetPageWidth 1000 = ((612 : Int) : ℚ) ∧
        Int.tdiv (612 * 300) 72 = 2550) ∧
      nativeGetPageWidthPoint letterEngine 1000 = some 612 ∧
      nativeGetPageWidthPixelRounded roundDouble letterEngine 1000 300 =
        some (Int.tdiv (612 * 300) 72) ∧
      nativeGetPageWidthPixel letterEngine 1000 300 = some (Int.tdiv (612 * 300) 72) :=
  ⟨⟨roundDouble_roundsToDouble, by decide, by decide, by norm_num [letterEngine], by decide⟩,
    (pixel_size_of_integer_points roundDouble roundDouble_roundsToDouble letterEngine 1000 300
      612 (by decide) (by decide)).1 (by norm_num [letterEngine])⟩

/-! ## Lemmas on rendering -/

theorem fillAndRender_frame (r : RenderEngine) (p : Process) (b page sx sy W H dW dH : Int)
    (annot : Bool) :
    fillAndRender r p b page sx sy W H dW dH annot =
      ({ p with trace := p.trace ++ fillCalls r b page sx sy W H dW dH annot },
        (fillAndRender r Process.initial b page sx sy W H dW dH annot).2) := by
  by_cases hg : dW < W ∨ dH < H <;>
    simp [fillAndRender, fillCalls, Process.call, Process.initial, hg]

theorem paintFills_append (b W H : Int) (l₁ l₂ : List Call) (c : Canvas) :
    paintFills b W H (l₁ ++ l₂) c = paintFills b W H l₂ (paintFills b W H l₁ c) := by
  simp [paintFills, List.foldl_append]

/-- The content of the bitmap after the fill steps: white inside the white
rectangle; outside it gray when the gray fill is made, the old content
otherwise. -/
theorem paintFills_fillCalls (r : RenderEngine) (b page sx sy W H dW dH : Int) (annot : Bool)
    (c₀ : Canvas) (x y : Int) (hx0 : 0 ≤ x) (hxW : x < W) (hy0 : 0 ≤ y) (hyH : y < H) :
    paintFills b W H (fillCalls r b page sx sy W H dW dH annot) c₀ x y =
      if inRect (baseRect sx sy W H dW dH) x y then 0xFFFFFFFF
      else if dW < W ∨ dH < H then 0x848484FF else c₀ x y := by
  by_cases hg : dW < W ∨ dH < H
  · by_cases hin : inRect (baseRect sx sy W H dW dH) x y
    · have hin2 := hin
      unfold inRect at hin2
      simp [fillCalls, fillAndRender, Process.call, Process.initial, paintFills, fillRect, hg,
        hin, hx0, hxW, hy0, hyH, hin2]
    · have hin2 := hin
      unfold inRect at hin2
      simp [fillCalls, fillAndRender, Process.call, Process.initial, paintFills, fillRect, hg,
        hin, hx0, hxW, hy0, hyH, hin2]
  · by_cases hin : inRect (baseRect sx sy W H dW dH) x y
    · have hin2 := hin
      unfold inRect at hin2
      simp [fillCalls, fillAndRender, Process.call, Process.initial, paintFills, fillRect, hg,
        hin, hx0, hxW, hy0, hyH, hin2]
    · have hin2 := hin
      unfold inRect at hin2
      simp [fillCalls, fillAndRender, Process.call, Process.initial, paintFills, fillRect, hg,
        hin, hx0, hxW, hy0, hyH, hin2]

theorem renderPageInternal_calls (r : RenderEngine) (p : Process) (page bits stride : Int)
    (sx sy W H dW dH : Int) (annot : Bool) :
    p.since (renderPageInternal r p page bits stride sx sy W H dW dH annot) =
      Call.FPDFBitmap_CreateEx W H r.FPDFBitmap_BGRA bits (stride * 4) ::
        fillCalls r (r.FPDFBitmap_CreateEx W H r.FPDFBitmap_BGRA bits (stride * 4)) page
          sx sy W H dW dH annot := by
  unfold renderPageInternal
  dsimp only
  rw [fillAndRender_frame]
  simp [Process.since, Process.call]

/-- The calls of an admitted render, and the document object after it. -/
theorem run_of_admitted (q : RenderRequest) (p : Process) (doc : DocumentFile)
    (h : q.admitted = true) :
    (q.run p doc).1.trace =
        p.trace ++ (q.setupCalls ++
          fillCalls q.engine q.pdfBitmap q.pagePtr q.startX q.startY
            (q.android.AndroidBitmap_getInfo q.bitmap).2.width
            (q.android.AndroidBitmap_getInfo q.bitmap).2.height
            q.drawSizeHor q.drawSizeVer q.renderAnnot ++
          q.formCalls doc.pdfDocument
            (q.engine.FPDFDOC_InitFormFillEnvironment doc.pdfDocument)) ∧
      (q.run p doc).2 =
        ⟨doc.pdfDocument, q.engine.FPDFDOC_InitFormFillEnvironment doc.pdfDocument⟩ ∧
      (q.run p doc).1.sLibraryReferenceCount = p.sLibraryReferenceCount ∧
      (q.run p doc).1.heap = p.heap := by
  simp only [RenderRequest.admitted, Bool.and_eq_true, Bool.or_eq_true, decide_eq_true_eq]
    at h
  obtain ⟨⟨⟨⟨hpage, hbitmap⟩, hinfo⟩, hformat⟩, hlock⟩ := h
  have hguard1 : ¬ (q.pagePtr = 0 ∨ q.bitmap = 0) := by
    rintro (h0 | h0)
    · exact hpage h0
    · exact hbitmap h0
  have hguard2 : ¬ (q.android.AndroidBitmap_getInfo q.bitmap).1 < 0 := not_lt.mpr hinfo
  have hguard3 : ¬ ((q.android.AndroidBitmap_getInfo q.bitmap).2.format ≠
        q.android.ANDROID_BITMAP_FORMAT_RGBA_8888 ∧
      (q.android.AndroidBitmap_getInfo q.bitmap).2.format ≠
        q.android.ANDROID_BITMAP_FORMAT_RGB_565) := by
    rintro ⟨h1, h2⟩
    rcases hformat with h3 | h3
    · exact h1 h3
    · exact h2 h3
  unfold RenderRequest.run nativeRenderPageBitmap
  simp only [hguard1, hguard2, hguard3, hlock, if_false, ne_eq, not_true_eq_false]
  rw [fillAndRender_frame]
  by_cases h565 : (q.android.AndroidBitmap_getInfo q.bitmap).2.format =
      q.android.ANDROID_BITMAP_FORMAT_RGB_565 <;>
    by_cases hform : q.engine.FPDFDOC_InitFormFillEnvironment doc.pdfDocument = 0 <;>
    simp [PDFForm_Render, Process.call, RenderRequest.setupCalls,
      RenderRequest.formCalls, RenderRequest.pdfBitmap, RenderRequest.flags, h565, hform]

theorem since_of_trace {p q : Process} {l : List Call} (h : q.trace = p.trace ++ l) :
    p.since q = l := by
  simp [Process.since, h]

theorem since_run_of_admitted (q : RenderRequest) (p : Process) (doc : DocumentFile)
    (h : q.admitted = true) :
    p.since (q.run p doc).1 =
      q.setupCalls ++
        fillCalls q.engine q.pdfBitmap q.pagePtr q.startX q.startY
          (q.android.AndroidBitmap_getInfo q.bitmap).2.width
          (q.android.AndroidBitmap_getInfo q.bitmap).2.height
          q.drawSizeHor q.drawSizeVer q.renderAnnot ++
        q.formCalls doc.pdfDocument (q.engine.FPDFDOC_InitFormFillEnvironment doc.pdfDocument) :=
  since_of_trace (run_of_admitted q p doc h).1

theorem paintFills_setupCalls (q : RenderRequest) (b W H : Int) (c : Canvas) :
    paintFills b W H q.setupCalls c = c := by
  by_cases h565 : (q.android.AndroidBitmap_getInfo q.bitmap).2.format =
      q.android.ANDROID_BITMAP_FORMAT_RGB_565 <;>
    simp [paintFills, RenderRequest.setupCalls, h565]

theorem paintFills_formCalls (q : RenderRequest) (document form b W H : Int) (c : Canvas) :
    paintFills b W H (q.formCalls document form) c = c := by
  by_cases hform : form = 0 <;> simp [paintFills, RenderRequest.formCalls, hform]

theorem paintFills_renderPageInternal (r : RenderEngine) (p : Process)
    (page bits stride sx sy W H dW dH : Int) (annot : Bool) (c₀ : Canvas) (x y : Int)
    (hx0 : 0 ≤ x) (hxW : x < W) (hy0 : 0 ≤ y) (hyH : y < H) :
    paintFills (r.FPDFBitmap_CreateEx W H r.FPDFBitmap_BGRA bits (stride * 4)) W H
        (p.since (renderPageInternal r p page bits stride sx sy W H dW dH annot)) c₀ x y =
      if inRect (baseRect sx sy W H dW dH) x y then 0xFFFFFFFF
      else if dW < W ∨ dH < H then 0x848484FF else c₀ x y := by
  rw [renderPageInternal_calls]
  have hcons : ∀ (l : List Call),
      paintFills (r.FPDFBitmap_CreateEx W H r.FPDFBitmap_BGRA bits (stride * 4)) W H
        (Call.FPDFBitmap_CreateEx W H r.FPDFBitmap_BGRA bits (stride * 4) :: l) c₀ =
      paintFills (r.FPDFBitmap_CreateEx W H r.FPDFBitmap_BGRA bits (stride * 4)) W H l c₀ := by
    intro l
    simp [paintFills]
  rw [hcons]
  exact paintFills_fillCalls r _ page sx sy W H dW dH annot c₀ x y hx0 hxW hy0 hyH

theorem paintFills_run (q : RenderRequest) (p : Process) (doc : DocumentFile) (c₀ : Canvas)
    (x y : Int) (hadm : q.admitted = true)
    (hx0 : 0 ≤ x) (hxW : x < (q.android.AndroidBitmap_getInfo q.bitmap).2.width)
    (hy0 : 0 ≤ y) (hyH : y < (q.android.AndroidBitmap_getInfo q.bitmap).2.height) :
    paintFills q.pdfBitmap (q.android.AndroidBitmap_getInfo q.bitmap).2.width
        (q.android.AndroidBitmap_getInfo q.bitmap).2.height (p.since (q.run p doc).1) c₀ x y =
      if inRect (baseRect q.startX q.startY (q.android.AndroidBitmap_getInfo q.bitmap).2.width
          (q.android.AndroidBitmap_getInfo q.bitmap).2.height q.drawSizeHor q.drawSizeVer) x y
        then 0xFFFFFFFF
      else if q.drawSizeHor < (q.android.AndroidBitmap_getInfo q.bitmap).2.width ∨
          q.drawSizeVer < (q.android.AndroidBitmap_getInfo q.bitmap).2.height then 0x848484FF
      else c₀ x y := by
  rw [since_run_of_admitted q p doc hadm, paintFills_append, paintFills_append,
    paintFills_setupCalls, paintFills_formCalls]
  exact paintFills_fillCalls q.engine q.pdfBitmap q.pagePtr q.startX q.startY _ _
    q.drawSizeHor q.drawSizeVer q.renderAnnot c₀ x y hx0 hxW hy0 hyH

/-- C11, the claim refuted.  A canvas of 2 by 2 pixels is smaller than the draw
size 4 by 4 in both dimensions.  With origin (1, 0) the canvas pixel (0, 0) is
outside the white rectangle, and after the fill steps it still holds its old
content 0, not the gray fill value: no gray fill is made. -/
theorem render_into_smaller_canvas_fills_no_gray :
    ((2 : Int) < 4 ∧ (2 : Int) < 4) ∧
      ¬ inRect (baseRect 1 0 2 2 4 4) 0 0 ∧
      paintFills 300 2 2
          (Process.initial.since
            (renderPageInternal exampleRenderer Process.initial 1000 8192 2 1 0 2 2 4 4 false))
          (fun _ _ => 0) 0 0 = 0 ∧
      Process.initial.since
          (renderPageInternal exampleRenderer Process.initial 1000 8192 2 1 0 2 2 4 4 false) =
        [.FPDFBitmap_CreateEx 2 2 4 8192 8, .FPDFBitmap_FillRect 300 1 0 2 2 0xFFFFFFFF,
          .FPDF_RenderPageBitmap 300 1000 1 0 4 4 0 16] := by
  refine ⟨by decide, by decide, by decide, by decide⟩

/-- C11 as amended.  For every render call and every origin, after the fill
steps and before rasterization: every canvas pixel inside the white background
rectangle holds opaque white; a canvas pixel outside it holds the fixed gray
fill value when the draw size is smaller than the canvas in some dimension
(draw width < canvas width or draw height < canvas height), and keeps its
previous content otherwise, in particular when the canvas is smaller than the
draw size in both dimensions.  Stated for `renderPageInternal` and for every
admitted `nativeRenderPageBitmap`. -/
theorem fill_steps_by_draw_size (p : Process) (c₀ : Canvas) (x y : Int) :
    (∀ (r : RenderEngine) (page bits stride sx sy W H dW dH : Int) (annot : Bool)
        (c : Canvas),
        0 ≤ x → x < W → 0 ≤ y → y < H →
        c = paintFills (r.FPDFBitmap_CreateEx W H r.FPDFBitmap_BGRA bits (stride * 4)) W H
          (p.since (renderPageInternal r p page bits stride sx sy W H dW dH annot)) c₀ →
        (inRect (baseRect sx sy W H dW dH) x y → c x y = 0xFFFFFFFF) ∧
          (¬ inRect (baseRect sx sy W H dW dH) x y → (dW < W ∨ dH < H) →
            c x y = 0x848484FF) ∧
          (¬ inRect (baseRect sx sy W H dW dH) x y → ¬ (dW < W ∨ dH < H) →
            c x y = c₀ x y)) ∧
      (∀ (q : RenderRequest) (doc : DocumentFile) (W H : Int) (c : Canvas),
        q.admitted = true →
        W = (q.android.AndroidBitmap_getInfo q.bitmap).2.width →
        H = (q.android.AndroidBitmap_getInfo q.bitmap).2.height →
        0 ≤ x → x < W → 0 ≤ y → y < H →
        c = paintFills q.pdfBitmap W H (p.since (q.run p doc).1) c₀ →
        (inRect (baseRect q.startX q.startY W H q.drawSizeHor q.drawSizeVer) x y →
            c x y = 0xFFFFFFFF) ∧
          (¬ inRect (baseRect q.startX q.startY W H q.drawSizeHor q.drawSizeVer) x y →
            (q.drawSizeHor < W ∨ q.drawSizeVer < H) → c x y = 0x848484FF) ∧
          (¬ inRect (baseRect q.startX q.startY W H q.drawSizeHor q.drawSizeVer) x y →
            ¬ (q.drawSizeHor < W ∨ q.drawSizeVer < H) → c x y = c₀ x y)) := by
  have hcases : ∀ (rect : Int × Int × Int × Int) (g : Prop) [Decidable g] (v : Int),
      v = (if inRect rect x y then 0xFFFFFFFF else if g then 0x848484FF else c₀ x y) →
      (inRect rect x y → v = 0xFFFFFFFF) ∧ (¬ inRect rect x y → g → v = 0x848484FF) ∧
        (¬ inRect rect x y → ¬ g → v = c₀ x y) := by
    intro rect g _ v hv
    refine ⟨fun h1 => ?_, fun h1 h2 => ?_, fun h1 h2 => ?_⟩
    · rw [hv, if_pos h1]
    · rw [hv, if_neg h1, if_pos h2]
    · rw [hv, if_neg h1, if_neg h2]
  constructor
  · intro r page bits stride sx sy W H dW dH annot c hx0 hxW hy0 hyH hc
    apply hcases
    rw [hc]
    exact paintFills_renderPageInternal r p page bits stride sx sy W H dW dH annot c₀ x y
      hx0 hxW hy0 hyH
  · intro q doc W H c hadm hW hH hx0 hxW hy0 hyH hc
    subst hW hH
    apply hcases
    rw [hc]
    exact paintFills_run q p doc c₀ x y hadm hx0 hxW hy0 hyH

theorem fill_steps_by_draw_size_witness :
    ((¬ inRect (baseRect 1 1 4 4 2 2) 0 0 ∧ ((2 : Int) < 4 ∨ (2 : Int) < 4)) ∧
        paintFills
            (exampleRenderer.FPDFBitmap_CreateEx 4 4 exampleRenderer.FPDFBitmap_BGRA 8192
              (4 * 4))
            4 4
            (Process.initial.since
              (renderPageInternal exampleRenderer Process.initial 1000 8192 4 1 1 4 4 2 2 false))
            (fun _ _ => 0) 0 0 = 0x848484FF) ∧
      ((exampleRequest.admitted = true ∧ inRect (baseRect 0 0 2 2 2 2) 1 1) ∧
        paintFills exampleRequest.pdfBitmap 2 2
            (Process.initial.since (exampleRequest.run Process.initial ⟨7, 0⟩).1)
            (fun _ _ => 0) 1 1 = 0xFFFFFFFF) :=
  ⟨⟨by decide,
      ((fill_steps_by_draw_size Process.initial (fun _ _ => 0) 0 0).1 exampleRenderer 1000 8192
        4 1 1 4 4 2 2 false _ (by decide) (by decide) (by decide) (by decide) rfl).2.1
        (by decide) (by decide)⟩,
    ⟨by decide,
      ((fill_steps_by_draw_size Process.initial (fun _ _ => 0) 1 1).2 exampleRequest ⟨7, 0⟩ 2 2
        _ (by decide) rfl rfl (by decide) (by decide) (by decide) (by decide) rfl).1
        (by decide)⟩⟩

/-- C12, the failing input.  When the engine cannot create a form environment
(`FPDFDOC_InitFormFillEnvironment` answers `NULL`), `PDFForm_Render` returns
`false`, but `nativeRenderPageBitmap` ignores the result and goes on:
`FORM_OnAfterLoadPage`, `FORM_DoPageAAction` and `FPDF_FFLDraw` are called with
the null form handle.  The pixels are unlocked at the end. -/
theorem render_goes_on_without_form_environment :
    formlessRequest.engine.FPDFDOC_InitFormFillEnvironment 7 = 0 ∧
      (PDFForm_Render formlessRenderer Process.initial ⟨7, 0⟩).2.2 = false ∧
      formlessRequest.run Process.initial ⟨7, 0⟩ =
        ({ trace := [.AndroidBitmap_lockPixels 55, .FPDFBitmap_CreateEx 2 2 4 8192 8,
              .FPDFBitmap_FillRect 300 0 0 2 2 0xFFFFFFFF,
              .FPDF_RenderPageBitmap 300 1000 0 0 2 2 0 16, .changeBitmapBR 8192,
              .FPDFDOC_InitFormFillEnvironment 7, .FORM_OnAfterLoadPage 1000 0,
              .FORM_DoPageAAction 1000 0 0, .FPDF_FFLDraw 0 300 1000 0 0 2 2 0 16,
              .changeBitmapBR 8192, .AndroidBitmap_unlockPixels 55] },
          ⟨7, 0⟩) := by
  refine ⟨by decide, by decide, by decide⟩

/-- C13, the claim refuted.  Closing the only live handle, whose document is 7
and whose form environment is 900, closes the document, tears the engine down
and frees the object; the form environment is not released. -/
theorem close_does_not_release_form_environment :
    formDocumentProcess.heap.lookup 4096 = some ⟨7, 900⟩ ∧
      nativeCloseDocument formDocumentProcess 4096 =
        { sLibraryReferenceCount := 0, heap := [],
          trace := [.FPDF_CloseDocument 7, .FPDF_DestroyLibrary, .operator_delete 4096] } ∧
      Call.FPDFDOC_ExitFormFillEnvironment 900 ∉
        (nativeCloseDocument formDocumentProcess 4096).trace := by
  refine ⟨by decide, by decide, by decide⟩

/-- C13 as amended.  Closing a document handle closes the native document, when
it has one, and drops the engine reference; it releases no form environment.
For every live `DocumentFile`, whatever its `m_form`, the calls of the close
operation are `FPDF_CloseDocument` (when `pdfDocument` is not null),
`FPDF_DestroyLibrary` (when the count reaches 0) and the release of the object,
and none of them is `FPDFDOC_ExitFormFillEnvironment`. -/
theorem close_releases_document_only (p : Process) (documentPtr : Int) (d : DocumentFile)
    (hlive : p.heap.lookup documentPtr = some d) :
    p.since (nativeCloseDocument p documentPtr) =
        (if d.pdfDocument ≠ 0 then [Call.FPDF_CloseDocument d.pdfDocument] else []) ++
          (if p.sLibraryReferenceCount - 1 = 0 then [Call.FPDF_DestroyLibrary] else []) ++
          [Call.operator_delete documentPtr] ∧
      (∀ form : Int,
        Call.FPDFDOC_ExitFormFillEnvironment form ∉ p.since (nativeCloseDocument p documentPtr)) := by
  have hcalls : p.since (nativeCloseDocument p documentPtr) =
      (if d.pdfDocument ≠ 0 then [Call.FPDF_CloseDocument d.pdfDocument] else []) ++
        (if p.sLibraryReferenceCount - 1 = 0 then [Call.FPDF_DestroyLibrary] else []) ++
        [Call.operator_delete documentPtr] := by
    by_cases hdoc : d.pdfDocument = 0 <;>
      by_cases h1 : p.sLibraryReferenceCount - 1 = 0 <;>
      simp [nativeCloseDocument, delete_DocumentFile, hlive, DocumentFile.destructor,
        destroyLibraryIfNeed, Process.call, Process.since, hdoc, h1]
  refine ⟨hcalls, ?_⟩
  intro form
  rw [hcalls]
  by_cases hdoc : d.pdfDocument = 0 <;>
    by_cases h1 : p.sLibraryReferenceCount - 1 = 0 <;>
    simp [hdoc, h1]

theorem close_releases_document_only_witness :
    formDocumentProcess.heap.lookup 4096 = some ⟨7, 900⟩ ∧
      ∀ form : Int,
        Call.FPDFDOC_ExitFormFillEnvironment form ∉
          formDocumentProcess.since (nativeCloseDocument formDocumentProcess 4096) :=
  ⟨by decide, (close_releases_document_only formDocumentProcess 4096 ⟨7, 900⟩ (by decide)).2⟩

/-- C14, the claim refuted.  For the null document handle
`nativeGetPageSizeByIndex` raises `IllegalStateException` ("Document is null")
and returns `NULL`, not a size. -/
theorem page_size_by_index_null_document_raises :
    nativeGetPageSizeByIndex exampleQueries Process.initial none 0 72 =
        ({ trace := [.ThrowNew "java/lang/IllegalStateException" "Document is null"] }, none) ∧
      raised (Process.initial.since
          (nativeGetPageSizeByIndex exampleQueries Process.initial none 0 72).1) ≠ [] := by
  refine ⟨by decide, by decide⟩

/-- C14 as amended.  For every document handle that is not null, every page
index and every dpi, `nativeGetPageSizeByIndex` raises nothing and returns a
size, and that size is `{0, 0}` whenever the engine cannot report a size for
the index.  For the null handle it raises `IllegalStateException`
("Document is null") and returns `NULL`. -/
theorem page_size_by_index_total_on_documents (g : QueryEngine) (p : Process)
    (pageIndex dpi : Int) :
    (∀ d : DocumentFile,
        raised (p.since (nativeGetPageSizeByIndex g p (some d) pageIndex dpi).1) = [] ∧
          (∃ size : Size, (nativeGetPageSizeByIndex g p (some d) pageIndex dpi).2 = some size) ∧
          ((g.FPDF_GetPageSizeByIndex d.pdfDocument pageIndex).1 = 0 →
            (nativeGetPageSizeByIndex g p (some d) pageIndex dpi).2 = some ⟨some 0, some 0⟩)) ∧
      (raised (p.since (nativeGetPageSizeByIndex g p none pageIndex dpi).1) =
          [("java/lang/IllegalStateException", "Document is null")] ∧
        (nativeGetPageSizeByIndex g p none pageIndex dpi).2 = none) := by
  have hzero : toJint ((0 : ℚ) * (dpi : ℚ) / 72) = some 0 := by
    have h0 : (0 : ℚ) * (dpi : ℚ) / 72 = ((0 : Int) : ℚ) := by simp
    rw [h0, toJint_of_fits] <;> rw [truncate_intCast] <;> norm_num
  refine ⟨fun d => ⟨?_, ⟨_, rfl⟩, ?_⟩, ?_, ?_⟩
  · simp [nativeGetPageSizeByIndex, Process.call, Process.since, raised]
  · intro hres
    simp only [nativeGetPageSizeByIndex, hres, if_true]
    rw [hzero]
  · simp [nativeGetPageSizeByIndex, jniThrowException, Process.call, Process.since, raised]
  · simp [nativeGetPageSizeByIndex]

theorem page_size_by_index_total_on_documents_witness :
    (exampleQueries.FPDF_GetPageSizeByIndex 7 5).1 = 0 ∧
      (nativeGetPageSizeByIndex exampleQueries Process.initial (some ⟨7, 0⟩) 5 300).2 =
        some ⟨some 0, some 0⟩ :=
  ⟨by decide,
    ((page_size_by_index_total_on_documents exampleQueries Process.initial 5 300).1
      ⟨7, 0⟩).2.2 (by decide)⟩

/-- C15, the claim refuted.  Link 40 has no action, and `nativeGetLinkURI`
returns `NULL` for it, not the empty string. -/
theorem link_uri_without_action_is_null :
    exampleQueries.FPDFLink_GetAction 40 = 0 ∧
      nativeGetLinkURI exampleQueries ⟨7, 0⟩ 40 = none ∧
      nativeGetLinkURI exampleQueries ⟨7, 0⟩ 40 ≠ some "" := by
  refine ⟨by decide, by decide, by decide⟩

/-- C15 as amended.  For every link that has no associated action,
`nativeGetLinkURI` returns a null result, not an empty string; it returns the
empty string when the link has an action for which the engine reports a path
length of 0. -/
theorem link_uri_null_without_action (g : QueryEngine) (doc : DocumentFile) (linkPtr : Int) :
    (g.FPDFLink_GetAction linkPtr = 0 → nativeGetLinkURI g doc linkPtr = none) ∧
      (g.FPDFLink_GetAction linkPtr ≠ 0 →
        (g.FPDFAction_GetURIPath doc.pdfDocument (g.FPDFLink_GetAction linkPtr)).1 = 0 →
        nativeGetLinkURI g doc linkPtr = some "") := by
  constructor
  · intro h
    simp [nativeGetLinkURI, h]
  · intro h hlen
    simp [nativeGetLinkURI, h, hlen]

theorem link_uri_null_without_action_witness :
    (exampleQueries.FPDFLink_GetAction 40 = 0 ∧
        nativeGetLinkURI exampleQueries ⟨7, 0⟩ 40 = none) ∧
      (exampleQueries.FPDFLink_GetAction 42 ≠ 0 ∧
        (exampleQueries.FPDFAction_GetURIPath 7 (exampleQueries.FPDFLink_GetAction 42)).1 = 0 ∧
        nativeGetLinkURI exampleQueries ⟨7, 0⟩ 42 = some "") :=
  ⟨⟨by decide, (link_uri_null_without_action exampleQueries ⟨7, 0⟩ 40).1 (by decide)⟩,
    ⟨by decide, by decide,
      (link_uri_null_without_action exampleQueries ⟨7, 0⟩ 42).2 (by decide) (by decide)⟩⟩

/-! ## Lemmas on the form environment -/

theorem count_init_setupCalls (q : RenderRequest) (document : Int) :
    q.setupCalls.count (Call.FPDFDOC_InitFormFillEnvironment document) = 0 := by
  by_cases h565 : (q.android.AndroidBitmap_getInfo q.bitmap).2.format =
      q.android.ANDROID_BITMAP_FORMAT_RGB_565 <;>
    simp [RenderRequest.setupCalls, h565]

theorem count_init_fillCalls (r : RenderEngine) (b page sx sy W H dW dH : Int) (annot : Bool)
    (document : Int) :
    (fillCalls r b page sx sy W H dW dH annot).count
      (Call.FPDFDOC_InitFormFillEnvironment document) = 0 := by
  by_cases hg : dW < W ∨ dH < H <;>
    simp [fillCalls, fillAndRender, Process.call, Process.initial, hg]

theorem count_init_formCalls (q : RenderRequest) (document form : Int) :
    (q.formCalls document form).count (Call.FPDFDOC_InitFormFillEnvironment document) = 1 := by
  by_cases hform : form = 0 <;> simp [RenderRequest.formCalls, hform]

/-- An admitted render creates one form environment. -/
theorem count_init_run (q : RenderRequest) (p : Process) (doc : DocumentFile)
    (h : q.admitted = true) :
    (p.since (q.run p doc).1).count (Call.FPDFDOC_InitFormFillEnvironment doc.pdfDocument) = 1 := by
  rw [since_run_of_admitted q p doc h, List.count_append, List.count_append,
    count_init_setupCalls, count_init_fillCalls, count_init_formCalls]

/-- A sequence of admitted renders creates one form environment per render. -/
theorem renderAll_trace (qs : List RenderRequest) :
    ∀ (p : Process) (doc : DocumentFile), (∀ q ∈ qs, q.admitted = true) →
      ∃ l : List Call, (renderAll p doc qs).1.trace = p.trace ++ l ∧
        l.count (Call.FPDFDOC_InitFormFillEnvironment doc.pdfDocument) = qs.length := by
  induction qs with
  | nil =>
    intro p doc _
    exact ⟨[], by simp [renderAll], rfl⟩
  | cons q rest ih =>
    intro p doc hall
    have hq : q.admitted = true := hall q (List.mem_cons_self q rest)
    have hrest : ∀ q' ∈ rest, q'.admitted = true :=
      fun q' hq' => hall q' (List.mem_cons_of_mem q hq')
    obtain ⟨htrace, hdoc, -, -⟩ := run_of_admitted q p doc hq
    have hcount := count_init_run q p doc hq
    rw [← since_of_trace htrace] at htrace
    obtain ⟨l, hl, hlcount⟩ := ih (q.run p doc).1 (q.run p doc).2 hrest
    have hpdf : (q.run p doc).2.pdfDocument = doc.pdfDocument := by rw [hdoc]
    rw [hpdf] at hlcount
    refine ⟨p.since (q.run p doc).1 ++ l, ?_, ?_⟩
    · show (renderAll (q.run p doc).1 (q.run p doc).2 rest).1.trace = _
      rw [hl, htrace, List.append_assoc]
    · rw [List.count_append, hcount, hlcount, List.length_cons]
      omega

/-- C16, the claim refuted.  Two form-aware renders on the same handle call
`FPDFDOC_InitFormFillEnvironment` twice, and the second render uses the
environment it created itself, 901, not the environment 900 of the first. -/
theorem every_render_creates_a_form_environment :
    (exampleRequest.admitted = true ∧ secondRequest.admitted = true) ∧
      (renderAll Process.initial ⟨7, 0⟩ [exampleRequest, secondRequest]).1.trace.count
          (Call.FPDFDOC_InitFormFillEnvironment 7) = 2 ∧
      (exampleRequest.run Process.initial ⟨7, 0⟩).2.m_form = 900 ∧
      Call.FPDF_FFLDraw 901 300 1000 0 0 2 2 0 16 ∈
        (renderAll Process.initial ⟨7, 0⟩ [exampleRequest, secondRequest]).1.trace ∧
      (renderAll Process.initial ⟨7, 0⟩ [exampleRequest, secondRequest]).2.m_form = 901 := by
  refine ⟨by decide, by decide, by decide, by decide, by decide⟩

/-- C16 as amended.  The form-fill environment is established on every use:
each form-aware render that passes the entry checks calls
`FPDFDOC_InitFormFillEnvironment` exactly once, stores the answer in `m_form`
in place of the previous one, and makes its page-level form calls with that
answer; so a sequence of such renders on a handle calls the initialisation
once per render. -/
theorem form_environment_created_by_every_render (p : Process) (doc : DocumentFile) :
    (∀ q : RenderRequest, q.admitted = true →
        (p.since (q.run p doc).1).count
            (Call.FPDFDOC_InitFormFillEnvironment doc.pdfDocument) = 1 ∧
          (q.run p doc).2 =
            ⟨doc.pdfDocument, q.engine.FPDFDOC_InitFormFillEnvironment doc.pdfDocument⟩ ∧
          Call.FORM_OnAfterLoadPage q.pagePtr
              (q.engine.FPDFDOC_InitFormFillEnvironment doc.pdfDocument) ∈
            p.since (q.run p doc).1 ∧
          Call.FPDF_FFLDraw (q.engine.FPDFDOC_InitFormFillEnvironment doc.pdfDocument)
              q.pdfBitmap q.pagePtr q.startX q.startY q.drawSizeHor q.drawSizeVer 0 q.flags ∈
            p.since (q.run p doc).1) ∧
      (∀ qs : List RenderRequest, (∀ q ∈ qs, q.admitted = true) →
        (p.since (renderAll p doc qs).1).count
            (Call.FPDFDOC_InitFormFillEnvironment doc.pdfDocument) = qs.length) := by
  constructor
  · intro q hq
    refine ⟨count_init_run q p doc hq, (run_of_admitted q p doc hq).2.1, ?_, ?_⟩
    · rw [since_run_of_admitted q p doc hq]
      apply List.mem_append_right
      simp [RenderRequest.formCalls]
    · rw [since_run_of_admitted q p doc hq]
      apply List.mem_append_right
      simp [RenderRequest.formCalls]
  · intro qs hall
    obtain ⟨l, hl, hcount⟩ := renderAll_trace qs p doc hall
    rw [since_of_trace hl]
    exact hcount

theorem form_environment_created_by_every_render_witness :
    (exampleRequest.admitted = true ∧
        (exampleRequest.run Process.initial ⟨7, 900⟩).2 = ⟨7, 900⟩) ∧
      ((∀ q ∈ [exampleRequest, secondRequest, exampleRequest], q.admitted = true) ∧
        (Process.initial.since
            (renderAll Process.initial ⟨7, 0⟩
              [exampleRequest, secondRequest, exampleRequest]).1).count
          (Call.FPDFDOC_InitFormFillEnvironment 7) = 3) :=
  ⟨⟨by decide,
      ((form_environment_created_by_every_render Process.initial ⟨7, 900⟩).1 exampleRequest
        (by decide)).2.1⟩,
    ⟨by decide,
      (form_environment_created_by_every_render Process.initial ⟨7, 0⟩).2
        [exampleRequest, secondRequest, exampleRequest] (by decide)⟩⟩

/-- C17, the failing input.  For a bitmap in `RGB_565` the rasterization
surface is bound to the buffer that `malloc` returns (12288), not to the locked
pixels of the caller (8192): the fills and the page are drawn into that
buffer, and no later step copies it into the pixels of the caller, on which
only the two `changeBitmapBR` passes run.  For `RGBA_8888` the surface is bound
to the locked pixels. -/
theorem rgb565_render_is_bound_to_scratch_buffer :
    (rgb565Request.admitted = true ∧
        (rgb565Android.AndroidBitmap_getInfo 55).2.format =
          rgb565Android.ANDROID_BITMAP_FORMAT_RGB_565) ∧
      (rgb565Request.run Process.initial ⟨7, 0⟩).1.trace =
        [.AndroidBitmap_lockPixels 55, .malloc 12, .FPDFBitmap_CreateEx 2 2 2 12288 6,
          .FPDFBitmap_FillRect 300 0 0 2 2 0xFFFFFFFF,
          .FPDF_RenderPageBitmap 300 1000 0 0 2 2 0 16, .changeBitmapBR 8192,
          .FPDFDOC_InitFormFillEnvironment 7,
          .FPDF_SetFormFieldHighlightColor 900 0 0xFFFFFF,
          .FPDF_SetFormFieldHighlightAlpha 900 100, .FORM_DoDocumentJSAction 900,
          .FORM_DoDocumentOpenAction 900, .FORM_OnAfterLoadPage 1000 900,
          .FORM_DoPageAAction 1000 900 0, .FPDF_FFLDraw 900 300 1000 0 0 2 2 0 16,
          .changeBitmapBR 8192, .AndroidBitmap_unlockPixels 55] ∧
      (exampleRequest.run Process.initial ⟨7, 0⟩).1.trace.take 2 =
        [.AndroidBitmap_lockPixels 55, .FPDFBitmap_CreateEx 2 2 4 8192 8] := by
  refine ⟨by decide, by decide, by decide⟩

/-! ## Lemmas on the channel swap -/

theorem mask_shift (p k : Nat) : (p &&& ((2 ^ 8 - 1) <<< k)) >>> k = p / 2 ^ k % 2 ^ 8 := by
  apply Nat.eq_of_testBit_eq
  intro j
  rw [← Nat.shiftRight_eq_div_pow]
  simp only [Nat.testBit_shiftRight, Nat.testBit_and, Nat.testBit_shiftLeft,
    Nat.testBit_two_pow_sub_one, Nat.testBit_mod_two_pow, Nat.add_sub_cancel_left]
  have hk : decide (k + j ≥ k) = true := by simp
  rw [hk, Bool.true_and, Bool.and_comm]

theorem RGBA_A_eq (p : Nat) : RGBA_A p = p / 16777216 % 256 := by
  have h : (0xFF000000 : Nat) = (2 ^ 8 - 1) <<< 24 := by decide
  unfold RGBA_A
  rw [h, mask_shift]
  norm_num

theorem RGBA_R_eq (p : Nat) : RGBA_R p = p / 65536 % 256 := by
  have h : (0x00FF0000 : Nat) = (2 ^ 8 - 1) <<< 16 := by decide
  unfold RGBA_R
  rw [h, mask_shift]
  norm_num

theorem RGBA_G_eq (p : Nat) : RGBA_G p = p / 256 % 256 := by
  have h : (0x0000FF00 : Nat) = (2 ^ 8 - 1) <<< 8 := by decide
  unfold RGBA_G
  rw [h, mask_shift]
  norm_num

theorem RGBA_B_eq (p : Nat) : RGBA_B p = p % 256 := by
  have h : (0x000000FF : Nat) = 2 ^ 8 - 1 := by decide
  unfold RGBA_B
  rw [h, Nat.and_pow_two_sub_one_eq_mod]

theorem MAKE_RGBA_eq (r g b a : Nat) (hr : r < 256) (hg : g < 256) (hb : b < 256) :
    MAKE_RGBA r g b a = a * 16777216 + r * 65536 + g * 256 + b := by
  unfold MAKE_RGBA
  rw [Nat.or_assoc, Nat.or_assoc, Nat.shiftLeft_eq, Nat.shiftLeft_eq, Nat.shiftLeft_eq]
  have h1 : g * 2 ^ 8 ||| b = 2 ^ 8 * g + b := by
    rw [Nat.mul_comm]; exact (Nat.mul_add_lt_is_or (by omega) g).symm
  have h2 : r * 2 ^ 16 ||| (2 ^ 8 * g + b) = 2 ^ 16 * r + (2 ^ 8 * g + b) := by
    rw [Nat.mul_comm]; exact (Nat.mul_add_lt_is_or (by omega) r).symm
  have h3 : a * 2 ^ 24 ||| (2 ^ 16 * r + (2 ^ 8 * g + b)) =
      2 ^ 24 * a + (2 ^ 16 * r + (2 ^ 8 * g + b)) := by
    rw [Nat.mul_comm]; exact (Nat.mul_add_lt_is_or (by omega) a).symm
  rw [h1, h2, h3]
  omega

theorem swapBR_eq (v : Nat) :
    swapBR v = (v / 16777216 % 256 * 16777216 + v % 256 * 65536 + v / 256 % 256 * 256 +
      v / 65536 % 256) % 4294967296 := by
  unfold swapBR
  simp only []
  rw [MAKE_RGBA_eq _ _ _ _ (by rw [RGBA_B_eq]; omega) (by rw [RGBA_G_eq]; omega)
    (by rw [RGBA_R_eq]; omega), RGBA_A_eq, RGBA_B_eq, RGBA_G_eq, RGBA_R_eq]
  norm_num

theorem swapBR_bytes (a r g b : Nat) (ha : a < 256) (hr : r < 256) (hg : g < 256)
    (hb : b < 256) :
    swapBR (a * 16777216 + r * 65536 + g * 256 + b) = a * 16777216 + b * 65536 + g * 256 + r := by
  have h1 : (a * 16777216 + r * 65536 + g * 256 + b) / 16777216 = a := by omega
  have h2 : (a * 16777216 + r * 65536 + g * 256 + b) / 65536 = a * 256 + r := by omega
  have h3 : (a * 16777216 + r * 65536 + g * 256 + b) / 256 = a * 65536 + r * 256 + g := by
    omega
  have h4 : (a * 16777216 + r * 65536 + g * 256 + b) % 256 = b := by omega
  have h5 : a % 256 = a := Nat.mod_eq_of_lt ha
  have h6 : (a * 256 + r) % 256 = r := by omega
  have h7 : (a * 65536 + r * 256 + g) % 256 = g := by omega
  rw [swapBR_eq, h1, h2, h3, h4, h5, h6, h7]
  omega

theorem bytes_of_pixel (v : Nat) (hv : v < 4294967296) :
    v = v / 16777216 % 256 * 16777216 + v / 65536 % 256 * 65536 + v / 256 % 256 * 256 +
      v % 256 := by
  omega

theorem swapBR_swapBR (v : Nat) (hv : v < 4294967296) : swapBR (swapBR v) = v := by
  have hbytes := bytes_of_pixel v hv
  have ha : v / 16777216 % 256 < 256 := Nat.mod_lt _ (by norm_num)
  have hr : v / 65536 % 256 < 256 := Nat.mod_lt _ (by norm_num)
  have hg : v / 256 % 256 < 256 := Nat.mod_lt _ (by norm_num)
  have hb : v % 256 < 256 := Nat.mod_lt _ (by norm_num)
  rw [hbytes, swapBR_bytes _ _ _ _ ha hr hg hb, swapBR_bytes _ _ _ _ ha hb hg hr]

theorem rowPass_length (f : Nat → Nat) (base : Nat) (n : Nat) (px : List Nat) :
    ((List.range n).foldl
        (fun pixels x => pixels.set (base + x) (f (pixels.getD (base + x) 0))) px).length =
      px.length := by
  induction n with
  | zero => rfl
  | succ m ihm =>
    rw [List.range_succ, List.foldl_append]
    simp only [List.foldl_cons, List.foldl_nil, List.length_set]
    exact ihm

theorem rowPass_getElem? (f : Nat → Nat) (base : Nat) (n : Nat) :
    ∀ (px : List Nat) (i : Nat),
      ((List.range n).foldl
          (fun pixels x => pixels.set (base + x) (f (pixels.getD (base + x) 0))) px)[i]? =
        if base ≤ i ∧ i < base + n then px[i]?.map f else px[i]? := by
  induction n with
  | zero =>
    intro px i
    have : ¬ (base ≤ i ∧ i < base + 0) := by omega
    simp only [List.range_zero, List.foldl_nil]
    rw [if_neg this]
  | succ n ih =>
    intro px i
    rw [List.range_succ, List.foldl_append]
    simp only [List.foldl_cons, List.foldl_nil]
    rw [List.getElem?_set, List.getD_eq_getElem?_getD, ih px i, ih px (base + n)]
    rw [rowPass_length]
    have hnot : ¬ (base ≤ base + n ∧ base + n < base + n) := by omega
    rw [if_neg hnot]
    by_cases hi : base + n = i
    · subst hi
      have hin : base ≤ base + n ∧ base + n < base + (n + 1) := by omega
      rw [if_pos rfl, if_pos hin]
      by_cases hl : base + n < px.length
      · rw [if_pos hl, List.getElem?_eq_getElem hl]
        simp
      · rw [if_neg hl, List.getElem?_eq_none (by omega)]
        simp
    · rw [if_neg hi]
      by_cases h1 : base ≤ i ∧ i < base + n
      · have h2 : base ≤ i ∧ i < base + (n + 1) := by omega
        rw [if_pos h1, if_pos h2]
      · have h2 : ¬ (base ≤ i ∧ i < base + (n + 1)) := by omega
        rw [if_neg h1, if_neg h2]

theorem changeBitmapBR_getElem? (width height : Nat) :
    ∀ (px : List Nat) (i : Nat),
      (changeBitmapBR width height px)[i]? =
        if i < height * width then px[i]?.map swapBR else px[i]? := by
  unfold changeBitmapBR
  induction height with
  | zero => intro px i; simp
  | succ h ih =>
    intro px i
    rw [List.range_succ, List.foldl_append]
    simp only [List.foldl_cons, List.foldl_nil]
    rw [rowPass_getElem? swapBR (h * width) width, ih px i]
    by_cases h1 : i < h * width
    · have h2 : ¬ (h * width ≤ i ∧ i < h * width + width) := by omega
      have h3 : i < (h + 1) * width := by rw [Nat.succ_mul]; omega
      rw [if_neg h2, if_pos h1, if_pos h3]
    · by_cases h2 : i < h * width + width
      · have h3 : i < (h + 1) * width := by rw [Nat.succ_mul]; omega
        have h4 : h * width ≤ i ∧ i < h * width + width := by omega
        rw [if_pos h4, if_neg h1, if_pos h3]
      · have h3 : ¬ i < (h + 1) * width := by rw [Nat.succ_mul]; omega
        have h4 : ¬ (h * width ≤ i ∧ i < h * width + width) := by omega
        rw [if_neg h4, if_neg h1, if_neg h3]

theorem changeBitmapBR_length (width height : Nat) (px : List Nat) :
    (changeBitmapBR width height px).length = px.length := by
  unfold changeBitmapBR
  induction height with
  | zero => rfl
  | succ h ih =>
    rw [List.range_succ, List.foldl_append]
    simp only [List.foldl_cons, List.foldl_nil]
    rw [rowPass_length swapBR (h * width) width]
    exact ih

theorem swapBR_lt (v : Nat) : swapBR v < 4294967296 := by
  rw [swapBR_eq]
  exact Nat.mod_lt _ (by norm_num)

theorem swapBR_channels (v : Nat) (hv : v < 4294967296) :
    swapBR v / 16777216 % 256 = v / 16777216 % 256 ∧
      swapBR v / 256 % 256 = v / 256 % 256 ∧
      swapBR v / 65536 % 256 = v % 256 ∧
      swapBR v % 256 = v / 65536 % 256 := by
  have ha : v / 16777216 % 256 < 256 := Nat.mod_lt _ (by norm_num)
  have hr : v / 65536 % 256 < 256 := Nat.mod_lt _ (by norm_num)
  have hg : v / 256 % 256 < 256 := Nat.mod_lt _ (by norm_num)
  have hb : v % 256 < 256 := Nat.mod_lt _ (by norm_num)
  have hswap : swapBR v = v / 16777216 % 256 * 16777216 + v % 256 * 65536 +
      v / 256 % 256 * 256 + v / 65536 % 256 := by
    conv_lhs => rw [bytes_of_pixel v hv]
    exact swapBR_bytes _ _ _ _ ha hr hg hb
  rw [hswap]
  generalize v / 16777216 % 256 = a at ha
  generalize v / 65536 % 256 = r at hr
  generalize v / 256 % 256 = g at hg
  generalize v % 256 = b at hb
  refine ⟨?_, ?_, ?_, ?_⟩ <;> omega

/-! ## Theorems on the channel swap, the white background and the last error -/

/-- C18.  One pass of `changeBitmapBR` over a buffer of `width` by `height`
32-bit pixels keeps the length of the buffer, leaves everything after the
first `width * height` values alone, and replaces every pixel value `v` by the
32-bit value whose alpha byte (bits 24-31) and green byte (bits 8-15) are those
of `v` and whose red byte (bits 16-23) and blue byte (bits 0-7) are those of
`v` exchanged; applying the pass twice restores every pixel. -/
theorem changeBitmapBR_exchanges_red_and_blue (width height : Nat) (pixels : List Nat) :
    (changeBitmapBR width height pixels).length = pixels.length ∧
      (∀ i v : Nat, i < height * width → pixels[i]? = some v → v < 2 ^ 32 →
        ∃ w : Nat, (changeBitmapBR width height pixels)[i]? = some w ∧ w < 2 ^ 32 ∧
          w / 2 ^ 24 % 256 = v / 2 ^ 24 % 256 ∧ w / 2 ^ 8 % 256 = v / 2 ^ 8 % 256 ∧
          w / 2 ^ 16 % 256 = v % 256 ∧ w % 256 = v / 2 ^ 16 % 256) ∧
      (∀ i : Nat, height * width ≤ i →
        (changeBitmapBR width height pixels)[i]? = pixels[i]?) ∧
      ((∀ v ∈ pixels, v < 2 ^ 32) →
        changeBitmapBR width height (changeBitmapBR width height pixels) = pixels) := by
  refine ⟨changeBitmapBR_length width height pixels, ?_, ?_, ?_⟩
  · intro i v hi hv hlt
    have hlt2 : v < 4294967296 := by norm_num at hlt; exact hlt
    refine ⟨swapBR v, ?_, by norm_num; exact swapBR_lt v, ?_⟩
    · rw [changeBitmapBR_getElem?, if_pos hi, hv]
      rfl
    · have := swapBR_channels v hlt2
      norm_num
      exact this
  · intro i hi
    rw [changeBitmapBR_getElem?, if_neg (by omega)]
  · intro hall
    apply List.ext_getElem?
    intro i
    rw [changeBitmapBR_getElem?, changeBitmapBR_getElem?]
    by_cases hi : i < height * width
    · simp only [if_pos hi]
      cases hget : pixels[i]? with
      | none => rfl
      | some v =>
        have hmem : v ∈ pixels := List.mem_iff_getElem?.mpr ⟨i, hget⟩
        have hlt : v < 4294967296 := by have := hall v hmem; norm_num at this; exact this
        simp only [Option.map_some', swapBR_swapBR v hlt]
    · simp only [if_neg hi]

theorem changeBitmapBR_exchanges_red_and_blue_witness :
    (∀ v ∈ [0x11223344, 0xFFAABBCC, 0x01020304], v < 2 ^ 32) ∧
      changeBitmapBR 2 1 [0x11223344, 0xFFAABBCC, 0x01020304] =
        [0x11443322, 0xFFCCBBAA, 0x01020304] ∧
      changeBitmapBR 2 1 (changeBitmapBR 2 1 [0x11223344, 0xFFAABBCC, 0x01020304]) =
        [0x11223344, 0xFFAABBCC, 0x01020304] ∧
      ((0 < 1 * 2 ∧ [0x11223344, 0xFFAABBCC, 0x01020304][0]? = some 0x11223344 ∧
          0x11223344 < 2 ^ 32) ∧
        ∃ w : Nat, (changeBitmapBR 2 1 [0x11223344, 0xFFAABBCC, 0x01020304])[0]? = some w ∧
          w < 2 ^ 32 ∧ w / 2 ^ 24 % 256 = 0x11223344 / 2 ^ 24 % 256 ∧
          w / 2 ^ 8 % 256 = 0x11223344 / 2 ^ 8 % 256 ∧
          w / 2 ^ 16 % 256 = 0x11223344 % 256 ∧ w % 256 = 0x11223344 / 2 ^ 16 % 256) :=
  ⟨by decide, by decide,
    (changeBitmapBR_exchanges_red_and_blue 2 1 [0x11223344, 0xFFAABBCC, 0x01020304]).2.2.2
      (by decide),
    ⟨by decide,
      (changeBitmapBR_exchanges_red_and_blue 2 1 [0x11223344, 0xFFAABBCC, 0x01020304]).2.1
        0 0x11223344 (by decide) (by decide) (by decide)⟩⟩

/-- C19.  The white background covers the visible content.  The rectangle that
the code fills white has origin `(max(startX, 0), max(startY, 0))` and size
`(min(canvasW, drawW), min(canvasH, drawH))`, and every canvas pixel `(x, y)`
that lies in the draw rectangle `[startX, startX + drawW) x [startY, startY +
drawH)` lies in it; so after the fill steps of `renderPageInternal` and of
every admitted `nativeRenderPageBitmap` that pixel is opaque white. -/
theorem white_rectangle_covers_draw_rectangle
    (startX startY drawSizeHor drawSizeVer canvasHorSize canvasVerSize x y : Int)
    (hx0 : 0 ≤ x) (hxW : x < canvasHorSize) (hy0 : 0 ≤ y) (hyH : y < canvasVerSize)
    (hdx0 : startX ≤ x) (hdx1 : x < startX + drawSizeHor)
    (hdy0 : startY ≤ y) (hdy1 : y < startY + drawSizeVer) :
    baseRect startX startY canvasHorSize canvasVerSize drawSizeHor drawSizeVer =
        (max startX 0, max startY 0, min canvasHorSize drawSizeHor,
          min canvasVerSize drawSizeVer) ∧
      inRect (baseRect startX startY canvasHorSize canvasVerSize drawSizeHor drawSizeVer) x y ∧
      (∀ (r : RenderEngine) (p : Process) (page bits stride : Int) (annot : Bool)
          (c₀ : Canvas),
        paintFills
            (r.FPDFBitmap_CreateEx canvasHorSize canvasVerSize r.FPDFBitmap_BGRA bits
              (stride * 4))
            canvasHorSize canvasVerSize
            (p.since (renderPageInternal r p page bits stride startX startY canvasHorSize
              canvasVerSize drawSizeHor drawSizeVer annot)) c₀ x y = 0xFFFFFFFF) ∧
      (∀ (q : RenderRequest) (p : Process) (doc : DocumentFile) (c₀ : Canvas),
        q.admitted = true →
        (q.android.AndroidBitmap_getInfo q.bitmap).2.width = canvasHorSize →
        (q.android.AndroidBitmap_getInfo q.bitmap).2.height = canvasVerSize →
        q.startX = startX → q.startY = startY →
        q.drawSizeHor = drawSizeHor → q.drawSizeVer = drawSizeVer →
        paintFills q.pdfBitmap canvasHorSize canvasVerSize (p.since (q.run p doc).1) c₀ x y =
          0xFFFFFFFF) := by
  have hrect : baseRect startX startY canvasHorSize canvasVerSize drawSizeHor drawSizeVer =
      (max startX 0, max startY 0, min canvasHorSize drawSizeHor,
        min canvasVerSize drawSizeVer) := by
    unfold baseRect
    simp only [Prod.mk.injEq]
    refine ⟨?_, ?_, ?_, ?_⟩
    · by_cases h : startX < 0
      · rw [if_pos h, max_eq_right (le_of_lt h)]
      · rw [if_neg h, max_eq_left (not_lt.mp h)]
    · by_cases h : startY < 0
      · rw [if_pos h, max_eq_right (le_of_lt h)]
      · rw [if_neg h, max_eq_left (not_lt.mp h)]
    · by_cases h : canvasHorSize < drawSizeHor
      · rw [if_pos h, min_eq_left (le_of_lt h)]
      · rw [if_neg h, min_eq_right (not_lt.mp h)]
    · by_cases h : canvasVerSize < drawSizeVer
      · rw [if_pos h, min_eq_left (le_of_lt h)]
      · rw [if_neg h, min_eq_right (not_lt.mp h)]
  have hin : inRect (baseRect startX startY canvasHorSize canvasVerSize drawSizeHor
      drawSizeVer) x y := by
    rw [hrect]
    unfold inRect
    simp only
    refine ⟨?_, ?_, ?_, ?_⟩
    · exact max_le hdx0 hx0
    · rcases min_choice canvasHorSize drawSizeHor with h | h
      · rw [h]; have := le_max_right startX 0; omega
      · rw [h]; have := le_max_left startX 0; omega
    · exact max_le hdy0 hy0
    · rcases min_choice canvasVerSize drawSizeVer with h | h
      · rw [h]; have := le_max_right startY 0; omega
      · rw [h]; have := le_max_left startY 0; omega
  refine ⟨hrect, hin, ?_, ?_⟩
  · intro r p page bits stride annot c₀
    rw [paintFills_renderPageInternal r p page bits stride startX startY canvasHorSize
      canvasVerSize drawSizeHor drawSizeVer annot c₀ x y hx0 hxW hy0 hyH, if_pos hin]
  · intro q p doc c₀ hadm hW hH hsx hsy hdW hdH
    subst hW hH hsx hsy hdW hdH
    rw [paintFills_run q p doc c₀ x y hadm hx0 hxW hy0 hyH, if_pos hin]

theorem white_rectangle_covers_draw_rectangle_witness :
    (((0 : Int) ≤ 1 ∧ (1 : Int) < 4) ∧ ((0 : Int) ≤ 2 ∧ (2 : Int) < 4) ∧
        ((-3 : Int) ≤ 1 ∧ (1 : Int) < -3 + 5) ∧ ((2 : Int) ≤ 2 ∧ (2 : Int) < 2 + 9)) ∧
      inRect (baseRect (-3) 2 4 4 5 9) 1 2 :=
  ⟨by decide,
    (white_rectangle_covers_draw_rectangle (-3) 2 5 9 4 4 1 2 (by decide) (by decide)
      (by decide) (by decide) (by decide) (by decide) (by decide) (by decide)).2.1⟩

/-- C20, the failing input.  A failed open with no other handle live: the
handle is deleted first, which takes the count to 0 and tears the engine down,
and only then is `FPDF_GetLastError` called.  The engine is not initialised at
that moment, on the descriptor path and on the memory path alike. -/
theorem last_error_is_read_after_teardown :
    ((nativeOpenDocument refusingEngine exampleHost Process.initial 3 none).1.trace =
          [.operator_new 4096, .FPDF_InitLibrary, .FPDF_LoadCustomDocument 1024 3 none,
            .FPDF_DestroyLibrary, .operator_delete 4096, .FPDF_GetLastError,
            .ThrowNew "java/io/IOException"
              "cannot create document: File not in PDF format or corrupted."] ∧
        (delete_DocumentFile
            ((new_DocumentFile Process.initial 4096).call
              (.FPDF_LoadCustomDocument 1024 3 none)) 4096).sLibraryReferenceCount = 0 ∧
        engineInitialised
            [.operator_new 4096, .FPDF_InitLibrary, .FPDF_LoadCustomDocument 1024 3 none,
              .FPDF_DestroyLibrary, .operator_delete 4096] = false) ∧
      ((nativeOpenMemDocument refusingEngine exampleHost Process.initial [37, 80] none).1.trace =
          [.operator_new 4096, .FPDF_InitLibrary, .FPDF_LoadMemDocument [37, 80] 2 none,
            .FPDF_DestroyLibrary, .operator_delete 4096, .FPDF_GetLastError,
            .ThrowNew "java/io/IOException"
              "cannot create document: File not in PDF format or corrupted."] ∧
        (delete_DocumentFile
            ((new_DocumentFile Process.initial 4096).call
              (.FPDF_LoadMemDocument [37, 80] 2 none)) 4096).sLibraryReferenceCount = 0 ∧
        engineInitialised
            [.operator_new 4096, .FPDF_InitLibrary, .FPDF_LoadMemDocument [37, 80] 2 none,
              .FPDF_DestroyLibrary, .operator_delete 4096] = false) := by
  refine ⟨⟨by decide, by decide, by decide⟩, ⟨by decide, by decide, by decide⟩⟩

end PdfiumAndroid
